import Mathlib

/-!
Verification development for the DeadMansSwitchV2 contract, a multi-tenant
dead-man's-switch factory written in AssemblyScript for the OPNet runtime.
The contract consists of a sub-pointer codec, a multi-slot variable-length
byte store, per-switch scalar storage maps, an ownership index, and the
public switch state machine (create / checkin / storeData /
storeDecryptionKey / trigger / cancel / updateBeneficiary / updateInterval
plus the read operations).

Modelling conventions:
* u256 values (switch ids, block numbers, intervals, statuses, chunk
  indices) are naturals; where the source performs checked arithmetic
  (SafeMath) the model fails on overflow at `2 ^ 256`, and where the source
  truncates to a fixed width the model applies the corresponding modulus.
* Account identifiers (Address, 32 bytes) are naturals below `2 ^ 256`.
* Byte arrays (Uint8Array) are `List Nat` with entries below 256.
* A storage slot is a function from byte index to byte value (indices
  0..31 are meaningful); a storage space is a function from the numeric
  value of a 32-byte key to its slot.  Unset slots read as all zeroes,
  matching the host ledger.
* The per-switch scalar field maps (owner, beneficiary, interval, grace
  period, last checkin, status, trigger block, chunk count) are modelled as
  per-field maps keyed by the switch id; the 30-byte sub-pointer derivation
  the source applies to that id is modelled explicitly in the codec section
  below, where its collision behaviour is analysed.  The ownership index is
  keyed by the XOR compound sub-pointer exactly as in the source.
-/

/-- Status constant for an active switch (`STATUS_ACTIVE = u256.Zero`). -/
def STATUS_ACTIVE : Nat := 0

/-- Status constant for a triggered switch (`STATUS_TRIGGERED = u256.One`). -/
def STATUS_TRIGGERED : Nat := 1

/-- Status constant for a cancelled switch (`STATUS_CANCELLED = 2`). -/
def STATUS_CANCELLED : Nat := 2

/-- Maximum number of 32-byte slots for a single stored byte array. -/
def MAX_BYTE_SLOTS : Nat := 256

/-- Maximum data bytes of one stored byte array, `MAX_BYTE_SLOTS * 32 - 4`
as computed inside `storeMultiSlotBytes` (= 8188). -/
def maxDataBytes : Nat := MAX_BYTE_SLOTS * 32 - 4

/-- Modulus of the 256-bit machine integers used by the contract. -/
def U256MOD : Nat := 2 ^ 256

/-- Pointer namespace of the data-chunk byte store (11th call of
`Blockchain.nextPointer`, i.e. pointer 10 in declaration order). -/
def switchDataChunksPointer : Nat := 10

/-- Pointer namespace of the encrypted-key byte store (pointer 9 in
declaration order). -/
def switchEncryptedKeyPointer : Nat := 9

/-- Converts a u256 to a 30-byte sub-pointer: the last 30 bytes of its
big-endian 32-byte representation; from `u256ToSubPointer` in the source
(`sub[i] = bytes32[i + 2]`). -/
def u256ToSubPointer (value : Nat) : List Nat :=
  (List.range 30).map (fun i => value / 256 ^ (29 - i) % 256)

/-- Converts an Address (32 bytes) to a 30-byte sub-pointer: its last 30
bytes; from `addressToSubPointer` in the source (`sub[i] = addr[i + 2]`). -/
def addressToSubPointer (addr : Nat) : List Nat :=
  (List.range 30).map (fun i => addr / 256 ^ (29 - i) % 256)

/-- Creates a compound sub-pointer from an Address and a u256 index by
byte-wise XOR of the two 30-byte representations; from
`addressIndexSubPointer` in the source. -/
def addressIndexSubPointer (addr index : Nat) : List Nat :=
  List.zipWith (fun x y => x ^^^ y) (addressToSubPointer addr) (u256ToSubPointer index)

/-- Creates a compound sub-pointer from two u256 values (switchId and
chunkIndex) by byte-wise XOR of the two 30-byte representations; from
`compoundSubPointer` in the source. -/
def compoundSubPointer (a b : Nat) : List Nat :=
  List.zipWith (fun x y => x ^^^ y) (u256ToSubPointer a) (u256ToSubPointer b)

/-- C1: the sub-pointer codec is not collision-resistant.  The distinct pairs
(switchId 1, chunkIndex 2) and (switchId 2, chunkIndex 1) are mapped by
`compoundSubPointer` to the same 30-byte compound sub-key, as is the pair
(switchId 3, chunkIndex 0); likewise the distinct owner-index pairs
(owner 1, index 2) and (owner 2, index 1) are mapped by
`addressIndexSubPointer` to one sub-key.  Byte-wise XOR is symmetric and
self-cancelling, so switch 1's chunk 2 and switch 2's chunk 1 address the
same storage slot, contradicting the claimed distinctness. -/
theorem subPointer_codec_collision :
    compoundSubPointer 1 2 = compoundSubPointer 2 1
      ∧ ((1 : Nat), (2 : Nat)) ≠ ((2 : Nat), (1 : Nat))
      ∧ compoundSubPointer 3 0 = compoundSubPointer 1 2
      ∧ addressIndexSubPointer 1 2 = addressIndexSubPointer 2 1
      ∧ ((1 : Nat), (2 : Nat)) ≠ ((2 : Nat), (1 : Nat)) := by
  decide

/-- Modelled from the spec: `encodePointer` lives in the btc-runtime library,
which is not part of this repository.  Spec section 6 specifies the storage
key format as `derive(pointerNamespace, subPointer)` with one distinct 2-byte
namespace per logical map and the 30-byte sub-pointer from the codec, i.e.
the 32-byte key whose high 2 bytes are the pointer namespace and whose low
30 bytes are the sub-pointer. -/
def encodePointerNat (pointer : Nat) (subPointer : List Nat) : Nat :=
  pointer * 2 ^ 240 + subPointer.foldl (fun acc b => acc * 256 + b) 0

/-- Modelled from the spec: `bigEndianAdd` lives in the btc-runtime library,
which is not part of this repository.  Spec section 6 specifies slot keys as
the base key plus N under big-endian integer addition over the key's 32-byte
representation, i.e. addition modulo `2 ^ 256`. -/
def bigEndianAdd (key n : Nat) : Nat :=
  (key + n) % U256MOD

/-- Modelled from the spec: `SafeMath.add` lives in the btc-runtime library,
which is not part of this repository.  Spec sections 4.5 and 7 specify all
additions as overflow-checked u256 arithmetic that aborts the operation on
overflow. -/
def SafeMathAdd (a b : Nat) : Except String Nat :=
  if a + b ≥ U256MOD then Except.error "SafeMath: addition overflow"
  else Except.ok (a + b)

/-- Storage space under one pointer namespace: a map from the numeric value
of a 32-byte key to a 32-byte slot, itself a map from byte index to byte
value.  Unset slots read as all zeroes. -/
abbrev Storage : Type := Nat → Nat → Nat

/-- Writes one 32-byte slot at a key (`Blockchain.setStorageAt`). -/
def setStorage (stg : Storage) (key : Nat) (slot : Nat → Nat) : Storage :=
  fun k => if k = key then slot else stg k

/-- Slot 0 of the multi-slot byte encoding: 4 length bytes (big-endian u32)
followed by the first `min length 28` data bytes, zero elsewhere; mirrors the
`slot0` buffer built in `storeMultiSlotBytes`. -/
def slot0Of (data : List Nat) : Nat → Nat :=
  fun i =>
    if i = 0 then data.length >>> 24 &&& 255
    else if i = 1 then data.length >>> 16 &&& 255
    else if i = 2 then data.length >>> 8 &&& 255
    else if i = 3 then data.length &&& 255
    else if 4 ≤ i ∧ i < 32 ∧ i - 4 < min data.length 28 then data.getD (i - 4) 0
    else 0

/-- Loop of `storeMultiSlotBytes` writing slots 1, 2, ...: while `offset` is
below the data length, write the up-to-32-byte chunk of `data` starting at
`offset` (zero padded) to key `bigEndianAdd baseKey slotIndex`, then advance
`offset` by 32 and `slotIndex` by 1. -/
def storeSlotsLoop (stg : Storage) (baseKey : Nat) (data : List Nat)
    (offset slotIndex : Nat) : Storage :=
  if offset < data.length then
    storeSlotsLoop
      (setStorage stg (bigEndianAdd baseKey slotIndex)
        (fun i => if i < 32 ∧ offset + i < data.length then data.getD (offset + i) 0 else 0))
      baseKey data (offset + 32) (slotIndex + 1)
  else stg
termination_by data.length - offset

/-- Stores a variable-length byte array across multiple 32-byte storage
slots, from `storeMultiSlotBytes` in the source: reverts when the length
exceeds `maxDataBytes`, otherwise writes slot 0 (4-byte big-endian length
plus first 28 data bytes) at the encoded base key and the remaining data in
32-byte slots at keys `baseKey + 1`, `baseKey + 2`, ... -/
def storeMultiSlotBytes (stg : Storage) (pointer : Nat) (subPointer : List Nat)
    (data : List Nat) : Except String Storage :=
  if data.length > maxDataBytes then
    Except.error "Data exceeds maximum storage capacity"
  else
    Except.ok
      (storeSlotsLoop
        (setStorage stg (encodePointerNat pointer subPointer) (slot0Of data))
        (encodePointerNat pointer subPointer) data 28 1)

/-- Loop of `loadMultiSlotBytes` reading slots 1, 2, ...: while `offset` is
below the decoded length, read `min (length - offset) 32` bytes from the slot
at key `bigEndianAdd baseKey slotIndex` and append them to the result. -/
def loadSlotsLoop (stg : Storage) (baseKey length offset slotIndex : Nat) : List Nat :=
  if offset < length then
    (List.range (min (length - offset) 32)).map (stg (bigEndianAdd baseKey slotIndex))
      ++ loadSlotsLoop stg baseKey length (offset + 32) (slotIndex + 1)
  else []
termination_by length - offset

/-- Loads a variable-length byte array from multiple 32-byte storage slots,
from `loadMultiSlotBytes` in the source: decodes the 4-byte big-endian length
from slot 0, returns the empty array when it is zero, and otherwise
reassembles the first `min length 28` bytes from slot 0 followed by the
remaining bytes from consecutive slots. -/
def loadMultiSlotBytes (stg : Storage) (pointer : Nat) (subPointer : List Nat) : List Nat :=
  let baseKey := encodePointerNat pointer subPointer
  let slot0 := stg baseKey
  let length := slot0 0 <<< 24 ||| slot0 1 <<< 16 ||| slot0 2 <<< 8 ||| slot0 3
  if length = 0 then []
  else
    (List.range (min length 28)).map (fun i => slot0 (i + 4))
      ++ loadSlotsLoop stg baseKey length 28 1

/-- Helper: a left shift OR-ed with a value below the shift width is plain
addition (disjoint bit ranges). -/
lemma shiftLeft_lor_eq_add (a b n : Nat) (hb : b < 2 ^ n) :
    a <<< n ||| b = a * 2 ^ n + b := by
  apply Nat.eq_of_testBit_eq
  intro k
  rw [Nat.testBit_lor, Nat.shiftLeft_eq, Nat.mul_comm,
    Nat.testBit_mul_pow_two_add a hb k, Nat.testBit_mul_pow_two]
  by_cases hk : k < n
  · simp [hk, Nat.not_le_of_lt hk]
  · have hbk : b.testBit k = false :=
      Nat.testBit_lt_two_pow
        (lt_of_lt_of_le hb (Nat.pow_le_pow_right (by norm_num) (Nat.le_of_not_lt hk)))
    simp [hk, hbk, Nat.le_of_not_lt hk]

/-- Helper: masking with 255 is reduction mod 256. -/
lemma and255_eq_mod (x : Nat) : x &&& 255 = x % 256 := by
  have h2 : (255 : Nat) = 2 ^ 8 - 1 := by norm_num
  rw [h2, Nat.and_pow_two_sub_one_eq_mod]

/-- Helper: decoding the four length bytes of `slot0Of data` recovers the
data length, for lengths within the store's capacity. -/
lemma decode_slot0_length (data : List Nat) (h : data.length ≤ maxDataBytes) :
    slot0Of data 0 <<< 24 ||| slot0Of data 1 <<< 16 ||| slot0Of data 2 <<< 8 ||| slot0Of data 3
      = data.length := by
  have hmax : data.length ≤ 8188 := by
    simpa [maxDataBytes, MAX_BYTE_SLOTS] using h
  have e0 : slot0Of data 0 = 0 := by
    have e : slot0Of data 0 = data.length >>> 24 &&& 255 := rfl
    rw [e, Nat.shiftRight_eq_div_pow, Nat.div_eq_of_lt (by omega), Nat.zero_and]
  have e1 : slot0Of data 1 = 0 := by
    have e : slot0Of data 1 = data.length >>> 16 &&& 255 := rfl
    rw [e, Nat.shiftRight_eq_div_pow, Nat.div_eq_of_lt (by omega), Nat.zero_and]
  have e2 : slot0Of data 2 = data.length / 256 := by
    have e : slot0Of data 2 = data.length >>> 8 &&& 255 := rfl
    have e256 : (2 : Nat) ^ 8 = 256 := by norm_num
    rw [e, Nat.shiftRight_eq_div_pow, and255_eq_mod, e256]
    omega
  have e3 : slot0Of data 3 = data.length % 256 := by
    have e : slot0Of data 3 = data.length &&& 255 := rfl
    rw [e, and255_eq_mod]
  rw [e0, e1, e2, e3, Nat.zero_shiftLeft, Nat.zero_shiftLeft,
    Nat.zero_or, Nat.zero_or]
  have hlow : data.length % 256 < 2 ^ 8 := by
    have hx : data.length % 256 < 256 := Nat.mod_lt _ (by norm_num)
    omega
  rw [shiftLeft_lor_eq_add _ _ _ hlow]
  have e256 : (2 : Nat) ^ 8 = 256 := by norm_num
  rw [e256]
  omega

/-- Helper: reading a range of `getD` values out of a list is `drop`/`take`. -/
lemma rangeMap_getD (l : List Nat) (k n : Nat) (h : k + n ≤ l.length) :
    (List.range n).map (fun i => l.getD (k + i) 0) = (l.drop k).take n := by
  apply List.ext_getElem
  · simp
    omega
  · intro i h1 h2
    have hi : i < n := by simpa using h1
    simp only [List.getElem_map, List.getElem_range]
    rw [List.getElem_take, List.getElem_drop]
    exact List.getD_eq_getElem l 0 (by omega)

/-- Helper: two slot keys derived from one in-range base key by adding
distinct in-range offsets are distinct. -/
lemma bigEndianAdd_ne (baseKey i j : Nat) (hb : baseKey < U256MOD)
    (hij : i < j) (hj : j - i < U256MOD) :
    bigEndianAdd baseKey i ≠ bigEndianAdd baseKey j := by
  intro hEq
  have h2 : Nat.ModEq U256MOD (baseKey + i) (baseKey + j) := hEq
  have h3 : Nat.ModEq U256MOD i j := Nat.ModEq.add_left_cancel' baseKey h2
  have h4 : U256MOD ∣ j - i := (Nat.modEq_iff_dvd' (Nat.le_of_lt hij)).mp h3
  have h5 : U256MOD ≤ j - i := Nat.le_of_dvd (by omega) h4
  omega

/-- Helper: the slot-writing loop leaves every key outside its write range
unchanged. -/
lemma storeSlotsLoop_frame : ∀ (fuel : Nat) (stg : Storage) (baseKey : Nat)
    (data : List Nat) (offset slotIndex k : Nat),
    data.length - offset ≤ fuel →
    (∀ j, slotIndex ≤ j → j < slotIndex + (data.length - offset + 31) / 32 →
      k ≠ bigEndianAdd baseKey j) →
    storeSlotsLoop stg baseKey data offset slotIndex k = stg k := by
  intro fuel
  induction fuel with
  | zero =>
    intro stg baseKey data offset slotIndex k hfuel _
    rw [storeSlotsLoop, if_neg (by omega)]
  | succ fuel ih =>
    intro stg baseKey data offset slotIndex k hfuel hk
    by_cases hlt : offset < data.length
    · rw [storeSlotsLoop, if_pos hlt]
      rw [ih _ _ _ _ _ _ (by omega)
        (by
          intro j hj1 hj2
          exact hk j (by omega) (by omega))]
      have hne : k ≠ bigEndianAdd baseKey slotIndex :=
        hk slotIndex (le_refl _) (by omega)
      simp [setStorage, hne]
    · rw [storeSlotsLoop, if_neg hlt]

/-- Helper: reading the slots written by the slot-writing loop, in lockstep
with the same offset and slot index, recovers the tail of the data. -/
lemma loadSlotsLoop_storeSlotsLoop : ∀ (fuel : Nat) (stg : Storage) (baseKey : Nat)
    (data : List Nat) (offset slotIndex : Nat),
    data.length - offset ≤ fuel →
    baseKey < U256MOD →
    1 ≤ slotIndex →
    slotIndex + (data.length - offset + 31) / 32 ≤ U256MOD →
    loadSlotsLoop (storeSlotsLoop stg baseKey data offset slotIndex)
        baseKey data.length offset slotIndex
      = data.drop offset := by
  intro fuel
  induction fuel with
  | zero =>
    intro stg baseKey data offset slotIndex hfuel _ _ _
    rw [loadSlotsLoop, if_neg (by omega)]
    exact (List.drop_eq_nil_of_le (by omega)).symm
  | succ fuel ih =>
    intro stg baseKey data offset slotIndex hfuel hbase hsi hbound
    by_cases hlt : offset < data.length
    · rw [loadSlotsLoop, if_pos hlt]
      conv =>
        lhs
        rw [storeSlotsLoop, if_pos hlt]
      have hkeyEq :
          storeSlotsLoop
            (setStorage stg (bigEndianAdd baseKey slotIndex)
              (fun i => if i < 32 ∧ offset + i < data.length then data.getD (offset + i) 0 else 0))
            baseKey data (offset + 32) (slotIndex + 1) (bigEndianAdd baseKey slotIndex)
          = (fun i => if i < 32 ∧ offset + i < data.length then data.getD (offset + i) 0 else 0) := by
        rw [storeSlotsLoop_frame (data.length - (offset + 32)) _ _ _ _ _ _ (le_refl _)
          (by
            intro j hj1 hj2
            exact bigEndianAdd_ne baseKey slotIndex j hbase (by omega)
              (by
                unfold U256MOD
                unfold U256MOD at hbound
                omega))]
        simp [setStorage]
      rw [hkeyEq]
      have hchunk :
          (List.range (min (data.length - offset) 32)).map
            (fun i => if i < 32 ∧ offset + i < data.length then data.getD (offset + i) 0 else 0)
          = (data.drop offset).take (min (data.length - offset) 32) := by
        rw [← rangeMap_getD data offset (min (data.length - offset) 32) (by omega)]
        apply List.map_congr_left
        intro i hi
        have hilt : i < min (data.length - offset) 32 := by simpa using hi
        have h32 : i < 32 := by omega
        have hoff : offset + i < data.length := by omega
        simp [h32, hoff]
      rw [hchunk]
      rw [ih _ _ _ _ _ (by omega) hbase (by omega)
        (by
          unfold U256MOD
          unfold U256MOD at hbound
          omega)]
      by_cases hsmall : data.length - offset ≤ 32
      · have hmin : min (data.length - offset) 32 = data.length - offset := by omega
        have hd32 : List.drop (offset + 32) data = [] := List.drop_eq_nil_of_le (by omega)
        rw [hmin, hd32, List.append_nil]
        apply List.take_of_length_le
        simp
      · have hmin : min (data.length - offset) 32 = 32 := by omega
        rw [hmin]
        have hdd : List.drop (offset + 32) data = List.drop 32 (List.drop offset data) := by
          rw [List.drop_drop]
        rw [hdd, List.take_append_drop]
    · rw [loadSlotsLoop, if_neg hlt]
      exact (List.drop_eq_nil_of_le (by omega)).symm

/-- Helper: bound on the numeric value of a byte string. -/
lemma foldlBytes_lt : ∀ (sub : List Nat) (acc : Nat),
    (∀ b ∈ sub, b < 256) →
    sub.foldl (fun acc2 b => acc2 * 256 + b) acc < (acc + 1) * 256 ^ sub.length := by
  intro sub
  induction sub with
  | nil =>
    intro acc _
    simp
  | cons b t ih =>
    intro acc hb
    have hbb : b < 256 := hb b (by simp)
    have ht : ∀ x ∈ t, x < 256 := fun x hx => hb x (by simp [hx])
    calc (b :: t).foldl (fun acc2 c => acc2 * 256 + c) acc
        = t.foldl (fun acc2 c => acc2 * 256 + c) (acc * 256 + b) := by simp
      _ < (acc * 256 + b + 1) * 256 ^ t.length := ih (acc * 256 + b) ht
      _ ≤ ((acc + 1) * 256) * 256 ^ t.length := by
          have : acc * 256 + b + 1 ≤ (acc + 1) * 256 := by omega
          exact Nat.mul_le_mul_right _ this
      _ = (acc + 1) * 256 ^ (b :: t).length := by
          simp [List.length_cons, Nat.pow_succ]
          ring

/-- Helper: encoded base keys fit in 32 bytes. -/
lemma encodePointerNat_lt (pointer : Nat) (subPointer : List Nat)
    (hp : pointer < 2 ^ 16) (hl : subPointer.length ≤ 30)
    (hb : ∀ b ∈ subPointer, b < 256) :
    encodePointerNat pointer subPointer < U256MOD := by
  have h1 := foldlBytes_lt subPointer 0 hb
  have h2 : (256 : Nat) ^ subPointer.length ≤ 256 ^ 30 :=
    Nat.pow_le_pow_right (by norm_num) hl
  unfold encodePointerNat U256MOD
  have h3 : subPointer.foldl (fun acc b => acc * 256 + b) 0 < 2 ^ 240 := by
    have h4 : (256 : Nat) ^ 30 = 2 ^ 240 := by norm_num
    omega
  have h5 : pointer * 2 ^ 240 ≤ (2 ^ 16 - 1) * 2 ^ 240 := by
    apply Nat.mul_le_mul_right
    omega
  have h6 : (2 : Nat) ^ 16 * 2 ^ 240 = 2 ^ 256 := by norm_num
  omega

/-- C2: multi-slot byte store round-trip.  For every pointer, 30-byte
sub-pointer and byte array of length at most `maxDataBytes = 8188` (the
empty array and exact-fit lengths included), loading immediately after
storing returns exactly the stored bytes. -/
theorem multiSlot_roundtrip (stg : Storage) (pointer : Nat) (subPointer : List Nat)
    (data : List Nat) (hptr : pointer < 2 ^ 16) (hsub : subPointer.length = 30)
    (hsubB : ∀ b ∈ subPointer, b < 256) (hdataB : ∀ b ∈ data, b < 256)
    (hlen : data.length ≤ maxDataBytes) :
    Except.map (fun stg2 => loadMultiSlotBytes stg2 pointer subPointer)
      (storeMultiSlotBytes stg pointer subPointer data) = Except.ok data := by
  have hbase : encodePointerNat pointer subPointer < U256MOD :=
    encodePointerNat_lt pointer subPointer hptr (by omega) hsubB
  have hmax : data.length ≤ 8188 := by
    simpa [maxDataBytes, MAX_BYTE_SLOTS] using hlen
  rw [storeMultiSlotBytes, if_neg (by omega)]
  simp only [Except.map]
  simp only [loadMultiSlotBytes]
  have hslot0 :
      storeSlotsLoop
        (setStorage stg (encodePointerNat pointer subPointer) (slot0Of data))
        (encodePointerNat pointer subPointer) data 28 1 (encodePointerNat pointer subPointer)
      = slot0Of data := by
    rw [storeSlotsLoop_frame (data.length - 28) _ _ _ _ _ _ (le_refl _)
      (by
        intro j hj1 hj2
        have hne := bigEndianAdd_ne (encodePointerNat pointer subPointer) 0 j hbase
          (by omega)
          (by
            unfold U256MOD
            omega)
        have h0 : bigEndianAdd (encodePointerNat pointer subPointer) 0
            = encodePointerNat pointer subPointer := by
          unfold bigEndianAdd
          rw [Nat.add_zero]
          exact Nat.mod_eq_of_lt hbase
        rw [h0] at hne
        exact hne)]
    simp [setStorage]
  rw [hslot0, decode_slot0_length data hlen]
  by_cases hzero : data.length = 0
  · rw [if_pos hzero]
    have : data = [] := List.length_eq_zero.mp hzero
    rw [this]
  · rw [if_neg hzero]
    have hfirst :
        (List.range (min data.length 28)).map (fun i => slot0Of data (i + 4))
        = data.take (min data.length 28) := by
      have he : (List.range (min data.length 28)).map (fun i => slot0Of data (i + 4))
          = (List.range (min data.length 28)).map (fun i => data.getD (0 + i) 0) := by
        apply List.map_congr_left
        intro i hi
        have hilt : i < min data.length 28 := by simpa using hi
        have h1 : ¬ (i + 4 = 0) := by omega
        have h2 : ¬ (i + 4 = 1) := by omega
        have h3 : ¬ (i + 4 = 2) := by omega
        have h4 : ¬ (i + 4 = 3) := by omega
        have h5 : 4 ≤ i + 4 ∧ i + 4 < 32 ∧ i + 4 - 4 < min data.length 28 := by omega
        simp only [slot0Of, if_neg h1, if_neg h2, if_neg h3, if_neg h4, if_pos h5]
        have : i + 4 - 4 = 0 + i := by omega
        rw [this]
      rw [he, rangeMap_getD data 0 (min data.length 28) (by omega), List.drop_zero]
    rw [hfirst]
    rw [loadSlotsLoop_storeSlotsLoop data.length _ _ _ _ _ (by omega) hbase (by omega)
      (by
        unfold U256MOD
        have : (data.length - 28 + 31) / 32 ≤ 256 := by omega
        omega)]
    by_cases hsmall : data.length ≤ 28
    · have hmin : min data.length 28 = data.length := by omega
      rw [hmin, List.take_of_length_le (le_refl _), List.drop_eq_nil_of_le (by omega),
        List.append_nil]
    · have hmin : min data.length 28 = 28 := by omega
      rw [hmin, List.take_append_drop]

/-- C2 witness: the round-trip law applied to a concrete store of three bytes
at pointer 10 under the sub-pointer of switch id 1. -/
theorem multiSlot_roundtrip_witness :
    Except.map (fun stg2 => loadMultiSlotBytes stg2 switchDataChunksPointer (u256ToSubPointer 1))
      (storeMultiSlotBytes (fun _ _ => 0) switchDataChunksPointer (u256ToSubPointer 1)
        [7, 8, 9]) = Except.ok [7, 8, 9] :=
  multiSlot_roundtrip (fun _ _ => 0) switchDataChunksPointer (u256ToSubPointer 1) [7, 8, 9]
    (by norm_num [switchDataChunksPointer]) (by decide) (by decide) (by decide) (by decide)

/-- Execution context supplied by the host ledger: the current block number
(`Blockchain.block.numberU256`) and the transaction sender
(`Blockchain.tx.sender`). -/
structure Ctx where
  currentBlock : Nat
  sender : Nat

/-- Updates one entry of a scalar storage map keyed by a u256 value. -/
def updMap (m : Nat → Nat) (key value : Nat) : Nat → Nat :=
  fun k => if k = key then value else m k

/-- Updates one entry of a storage map keyed by a 30-byte sub-pointer. -/
def updMapL (m : List Nat → Nat) (key : List Nat) (value : Nat) : List Nat → Nat :=
  fun k => if k = key then value else m k

/-- Durable state of the DeadMansSwitchV2 contract: the global counter, one
scalar map per record field (pointers 1..8), the two multi-slot byte stores
(pointers 9 and 10), and the ownership index (pointers 11 and 12, the latter
keyed by the XOR compound sub-pointer exactly as in the source). -/
structure ContractState where
  nextSwitchId : Nat
  switchOwner : Nat → Nat
  switchBeneficiary : Nat → Nat
  switchInterval : Nat → Nat
  switchGracePeriod : Nat → Nat
  switchLastCheckin : Nat → Nat
  switchStatus : Nat → Nat
  switchTriggerBlock : Nat → Nat
  switchChunkCount : Nat → Nat
  ownerSwitchCount : Nat → Nat
  ownerSwitchIndex : List Nat → Nat
  switchEncryptedKey : Storage
  switchDataChunks : Storage

/-- State right after deployment: `onDeployment` initializes the counter to
1 (reserving id 0 as "does not exist"); all other storage reads as zero. -/
def initialState : ContractState where
  nextSwitchId := 1
  switchOwner := fun _ => 0
  switchBeneficiary := fun _ => 0
  switchInterval := fun _ => 0
  switchGracePeriod := fun _ => 0
  switchLastCheckin := fun _ => 0
  switchStatus := fun _ => 0
  switchTriggerBlock := fun _ => 0
  switchChunkCount := fun _ => 0
  ownerSwitchCount := fun _ => 0
  ownerSwitchIndex := fun _ => 0
  switchEncryptedKey := fun _ _ => 0
  switchDataChunks := fun _ _ => 0

/-- Ensures a switchId refers to an existing switch; from
`ensureSwitchExists` in the source (`switchId.isZero() || switchId >= nextId`
reverts). -/
def ensureSwitchExists (st : ContractState) (switchId : Nat) : Except String Unit :=
  if switchId = 0 ∨ switchId ≥ st.nextSwitchId then Except.error "Switch does not exist"
  else Except.ok ()

/-- Ensures the caller is the owner of the given switch; from `ensureOwner`
in the source. -/
def ensureOwner (ctx : Ctx) (st : ContractState) (switchId : Nat) : Except String Unit :=
  if ctx.sender ≠ st.switchOwner switchId then Except.error "Only owner can call this method"
  else Except.ok ()

/-- Ensures the switch is in ACTIVE status; from `ensureActive` in the
source. -/
def ensureActive (st : ContractState) (switchId : Nat) : Except String Unit :=
  if st.switchStatus switchId ≠ STATUS_ACTIVE then Except.error "Switch is not active"
  else Except.ok ()

/-- Creates a new switch; from `createSwitch` in the source.  Validates the
arguments, writes the eight scalar fields of the new record (owner = sender,
status = ACTIVE, lastCheckin = current block, triggerBlock = 0,
chunkCount = 0), appends the id to the sender's ownership index
(`addSwitchToOwner`), and increments the global counter with checked
arithmetic.  Returns the new id together with the poststate. -/
def createSwitch (ctx : Ctx) (st : ContractState)
    (beneficiary interval gracePeriod : Nat) : Except String (Nat × ContractState) :=
  if beneficiary = 0 then Except.error "Beneficiary cannot be zero address"
  else if interval = 0 then Except.error "Heartbeat interval must be greater than zero"
  else if gracePeriod = 0 then Except.error "Grace period must be greater than zero"
  else
    match SafeMathAdd (st.ownerSwitchCount ctx.sender) 1, SafeMathAdd st.nextSwitchId 1 with
    | Except.ok newOwnerCount, Except.ok newNextId =>
      Except.ok (st.nextSwitchId,
        { st with
          switchOwner := updMap st.switchOwner st.nextSwitchId ctx.sender,
          switchBeneficiary := updMap st.switchBeneficiary st.nextSwitchId beneficiary,
          switchInterval := updMap st.switchInterval st.nextSwitchId interval,
          switchGracePeriod := updMap st.switchGracePeriod st.nextSwitchId gracePeriod,
          switchLastCheckin := updMap st.switchLastCheckin st.nextSwitchId ctx.currentBlock,
          switchStatus := updMap st.switchStatus st.nextSwitchId STATUS_ACTIVE,
          switchTriggerBlock := updMap st.switchTriggerBlock st.nextSwitchId 0,
          switchChunkCount := updMap st.switchChunkCount st.nextSwitchId 0,
          ownerSwitchIndex := updMapL st.ownerSwitchIndex
            (addressIndexSubPointer ctx.sender (st.ownerSwitchCount ctx.sender))
            st.nextSwitchId,
          ownerSwitchCount := updMap st.ownerSwitchCount ctx.sender newOwnerCount,
          nextSwitchId := newNextId })
    | Except.error e, _ => Except.error e
    | _, Except.error e => Except.error e

/-- Owner checks in, resetting the heartbeat timer; from `checkin` in the
source. -/
def checkin (ctx : Ctx) (st : ContractState) (switchId : Nat) : Except String ContractState :=
  match ensureSwitchExists st switchId with
  | Except.error e => Except.error e
  | Except.ok _ =>
    match ensureOwner ctx st switchId with
    | Except.error e => Except.error e
    | Except.ok _ =>
      match ensureActive st switchId with
      | Except.error e => Except.error e
      | Except.ok _ =>
        Except.ok { st with
          switchLastCheckin := updMap st.switchLastCheckin switchId ctx.currentBlock }

/-- Stores an encrypted data chunk for a switch; from `storeData` in the
source.  Writes the chunk through the multi-slot byte store under the XOR
compound sub-pointer, then raises the chunk count to `chunkIndex + 1` when
that exceeds the current count. -/
def storeData (ctx : Ctx) (st : ContractState) (switchId chunkIndex : Nat)
    (encryptedData : List Nat) : Except String ContractState :=
  match ensureSwitchExists st switchId with
  | Except.error e => Except.error e
  | Except.ok _ =>
    match ensureOwner ctx st switchId with
    | Except.error e => Except.error e
    | Except.ok _ =>
      match ensureActive st switchId with
      | Except.error e => Except.error e
      | Except.ok _ =>
        if encryptedData.length = 0 then Except.error "Data cannot be empty"
        else
          match storeMultiSlotBytes st.switchDataChunks switchDataChunksPointer
              (compoundSubPointer switchId chunkIndex) encryptedData with
          | Except.error e => Except.error e
          | Except.ok chunks2 =>
            match SafeMathAdd chunkIndex 1 with
            | Except.error e => Except.error e
            | Except.ok indexPlusOne =>
              if indexPlusOne > st.switchChunkCount switchId then
                Except.ok { st with
                  switchDataChunks := chunks2,
                  switchChunkCount := updMap st.switchChunkCount switchId indexPlusOne }
              else
                Except.ok { st with switchDataChunks := chunks2 }

/-- Stores the encrypted decryption key for a switch; from
`storeDecryptionKey` in the source. -/
def storeDecryptionKey (ctx : Ctx) (st : ContractState) (switchId : Nat)
    (encryptedKey : List Nat) : Except String ContractState :=
  match ensureSwitchExists st switchId with
  | Except.error e => Except.error e
  | Except.ok _ =>
    match ensureOwner ctx st switchId with
    | Except.error e => Except.error e
    | Except.ok _ =>
      match ensureActive st switchId with
      | Except.error e => Except.error e
      | Except.ok _ =>
        if encryptedKey.length = 0 then Except.error "Encrypted key cannot be empty"
        else
          match storeMultiSlotBytes st.switchEncryptedKey switchEncryptedKeyPointer
              (u256ToSubPointer switchId) encryptedKey with
          | Except.error e => Except.error e
          | Except.ok keyStore2 =>
            Except.ok { st with switchEncryptedKey := keyStore2 }

/-- Triggers a switch if the heartbeat has expired; from `trigger` in the
source.  Anyone can call this: the definition never reads `ctx.sender`. -/
def trigger (ctx : Ctx) (st : ContractState) (switchId : Nat) : Except String ContractState :=
  match ensureSwitchExists st switchId with
  | Except.error e => Except.error e
  | Except.ok _ =>
    if st.switchStatus switchId = STATUS_TRIGGERED then
      Except.error "Switch already triggered"
    else if st.switchStatus switchId = STATUS_CANCELLED then
      Except.error "Switch has been cancelled"
    else
      match SafeMathAdd (st.switchLastCheckin switchId) (st.switchInterval switchId) with
      | Except.error e => Except.error e
      | Except.ok deadline =>
        if ctx.currentBlock ≤ deadline then Except.error "Heartbeat has not expired yet"
        else
          Except.ok { st with
            switchStatus := updMap st.switchStatus switchId STATUS_TRIGGERED,
            switchTriggerBlock := updMap st.switchTriggerBlock switchId ctx.currentBlock }

/-- Owner cancels a triggered switch within the grace period; from `cancel`
in the source. -/
def cancel (ctx : Ctx) (st : ContractState) (switchId : Nat) : Except String ContractState :=
  match ensureSwitchExists st switchId with
  | Except.error e => Except.error e
  | Except.ok _ =>
    match ensureOwner ctx st switchId with
    | Except.error e => Except.error e
    | Except.ok _ =>
      if st.switchStatus switchId ≠ STATUS_TRIGGERED then
        Except.error "Switch is not triggered"
      else
        match SafeMathAdd (st.switchTriggerBlock switchId) (st.switchGracePeriod switchId) with
        | Except.error e => Except.error e
        | Except.ok graceDeadline =>
          if ctx.currentBlock > graceDeadline then Except.error "Grace period has expired"
          else
            Except.ok { st with
              switchStatus := updMap st.switchStatus switchId STATUS_ACTIVE,
              switchLastCheckin := updMap st.switchLastCheckin switchId ctx.currentBlock,
              switchTriggerBlock := updMap st.switchTriggerBlock switchId 0 }

/-- Updates the beneficiary address for a switch; from `updateBeneficiary`
in the source. -/
def updateBeneficiary (ctx : Ctx) (st : ContractState) (switchId newBeneficiary : Nat) :
    Except String ContractState :=
  match ensureSwitchExists st switchId with
  | Except.error e => Except.error e
  | Except.ok _ =>
    match ensureOwner ctx st switchId with
    | Except.error e => Except.error e
    | Except.ok _ =>
      match ensureActive st switchId with
      | Except.error e => Except.error e
      | Except.ok _ =>
        if newBeneficiary = 0 then Except.error "Beneficiary cannot be zero address"
        else
          Except.ok { st with
            switchBeneficiary := updMap st.switchBeneficiary switchId newBeneficiary }

/-- Updates the heartbeat interval for a switch; from `updateInterval` in
the source. -/
def updateInterval (ctx : Ctx) (st : ContractState) (switchId newInterval : Nat) :
    Except String ContractState :=
  match ensureSwitchExists st switchId with
  | Except.error e => Except.error e
  | Except.ok _ =>
    match ensureOwner ctx st switchId with
    | Except.error e => Except.error e
    | Except.ok _ =>
      match ensureActive st switchId with
      | Except.error e => Except.error e
      | Except.ok _ =>
        if newInterval = 0 then Except.error "Interval must be greater than zero"
        else
          Except.ok { st with
            switchInterval := updMap st.switchInterval switchId newInterval }

/-- Returns all metadata for a given switch (owner, beneficiary, interval,
gracePeriod, lastCheckin, status, triggerBlock, chunkCount); from
`getSwitch` in the source. -/
def getSwitch (st : ContractState) (switchId : Nat) :
    Except String (Nat × Nat × Nat × Nat × Nat × Nat × Nat × Nat) :=
  match ensureSwitchExists st switchId with
  | Except.error e => Except.error e
  | Except.ok _ =>
    Except.ok (st.switchOwner switchId, st.switchBeneficiary switchId,
      st.switchInterval switchId, st.switchGracePeriod switchId,
      st.switchLastCheckin switchId, st.switchStatus switchId,
      st.switchTriggerBlock switchId, st.switchChunkCount switchId)

/-- Returns the encrypted data chunk at the given index for a switch; from
`getData` in the source. -/
def getData (st : ContractState) (switchId chunkIndex : Nat) : Except String (List Nat) :=
  match ensureSwitchExists st switchId with
  | Except.error e => Except.error e
  | Except.ok _ =>
    if chunkIndex ≥ st.switchChunkCount switchId then
      Except.error "Chunk index out of bounds"
    else
      Except.ok (loadMultiSlotBytes st.switchDataChunks switchDataChunksPointer
        (compoundSubPointer switchId chunkIndex))

/-- Returns the encrypted decryption key for a switch, only after it has
been triggered; from `getDecryptionKey` in the source. -/
def getDecryptionKey (st : ContractState) (switchId : Nat) : Except String (List Nat) :=
  match ensureSwitchExists st switchId with
  | Except.error e => Except.error e
  | Except.ok _ =>
    if st.switchStatus switchId ≠ STATUS_TRIGGERED then
      Except.error "Switch has not been triggered"
    else
      Except.ok (loadMultiSlotBytes st.switchEncryptedKey switchEncryptedKeyPointer
        (u256ToSubPointer switchId))

/-- Returns whether a switch's heartbeat timer has expired; from `isExpired`
in the source. -/
def isExpired (ctx : Ctx) (st : ContractState) (switchId : Nat) : Except String Bool :=
  match ensureSwitchExists st switchId with
  | Except.error e => Except.error e
  | Except.ok _ =>
    match SafeMathAdd (st.switchLastCheckin switchId) (st.switchInterval switchId) with
    | Except.error e => Except.error e
    | Except.ok deadline => Except.ok (decide (ctx.currentBlock > deadline))

/-- One state-mutating public operation together with the host context it
executes under.  The read operations (`getSwitch`, `getData`,
`getDecryptionKey`, `isExpired`, `getSwitchCount`, `getSwitchesByOwner`)
write no storage, so a sequence of public operations is, for the purposes of
state evolution, a sequence of these eight constructors. -/
inductive Op where
  | opCreateSwitch (ctx : Ctx) (beneficiary interval gracePeriod : Nat)
  | opCheckin (ctx : Ctx) (switchId : Nat)
  | opStoreData (ctx : Ctx) (switchId chunkIndex : Nat) (encryptedData : List Nat)
  | opStoreDecryptionKey (ctx : Ctx) (switchId : Nat) (encryptedKey : List Nat)
  | opTrigger (ctx : Ctx) (switchId : Nat)
  | opCancel (ctx : Ctx) (switchId : Nat)
  | opUpdateBeneficiary (ctx : Ctx) (switchId newBeneficiary : Nat)
  | opUpdateInterval (ctx : Ctx) (switchId newInterval : Nat)

/-- Applies one operation with revert-on-abort semantics: a failing
operation rolls back and leaves the durable state unchanged (all-or-nothing
commit, spec section 7). -/
def step (st : ContractState) (op : Op) : ContractState :=
  match op with
  | Op.opCreateSwitch ctx b i g =>
    match createSwitch ctx st b i g with
    | Except.ok r => r.2
    | Except.error _ => st
  | Op.opCheckin ctx switchId =>
    match checkin ctx st switchId with
    | Except.ok st2 => st2
    | Except.error _ => st
  | Op.opStoreData ctx switchId chunkIndex d =>
    match storeData ctx st switchId chunkIndex d with
    | Except.ok st2 => st2
    | Except.error _ => st
  | Op.opStoreDecryptionKey ctx switchId k =>
    match storeDecryptionKey ctx st switchId k with
    | Except.ok st2 => st2
    | Except.error _ => st
  | Op.opTrigger ctx switchId =>
    match trigger ctx st switchId with
    | Except.ok st2 => st2
    | Except.error _ => st
  | Op.opCancel ctx switchId =>
    match cancel ctx st switchId with
    | Except.ok st2 => st2
    | Except.error _ => st
  | Op.opUpdateBeneficiary ctx switchId b =>
    match updateBeneficiary ctx st switchId b with
    | Except.ok st2 => st2
    | Except.error _ => st
  | Op.opUpdateInterval ctx switchId n =>
    match updateInterval ctx st switchId n with
    | Except.ok st2 => st2
    | Except.error _ => st

/-- Executes a sequence of public operations in order. -/
def execOps (st : ContractState) (ops : List Op) : ContractState :=
  ops.foldl step st

/-- One `storeData` call: its context, chunk index and payload. -/
structure StoreCall where
  ctx : Ctx
  chunkIndex : Nat
  data : List Nat

/-- Runs a sequence of `storeData` calls against one switch, with
revert-on-abort semantics, returning the final state together with the
chunk indices of the calls that succeeded, in order. -/
def runStoreData (st : ContractState) (switchId : Nat) :
    List StoreCall → ContractState × List Nat
  | [] => (st, [])
  | c :: rest =>
    match storeData c.ctx st switchId c.chunkIndex c.data with
    | Except.ok st2 =>
      ((runStoreData st2 switchId rest).1, c.chunkIndex :: (runStoreData st2 switchId rest).2)
    | Except.error _ => runStoreData st switchId rest

/-- Maximum of a list of naturals (0 for the empty list). -/
def listMax (l : List Nat) : Nat :=
  l.foldr max 0

/-- Status invariant: every stored status value is ACTIVE or TRIGGERED, and
records outside the existing id range read the zero (ACTIVE) status. -/
def statusInv (st : ContractState) : Prop :=
  (∀ switchId, st.switchStatus switchId = STATUS_ACTIVE
      ∨ st.switchStatus switchId = STATUS_TRIGGERED)
    ∧ ∀ switchId, (switchId = 0 ∨ switchId ≥ st.nextSwitchId) →
      st.switchStatus switchId = STATUS_ACTIVE

/-- Chunk-count invariant: records outside the existing id range have chunk
count zero. -/
def chunkInv (st : ContractState) : Prop :=
  ∀ switchId, (switchId = 0 ∨ switchId ≥ st.nextSwitchId) →
    st.switchChunkCount switchId = 0

/-- Helper: the existence check passes exactly on existing ids. -/
lemma ensureSwitchExists_ok (st : ContractState) (switchId : Nat)
    (h : 1 ≤ switchId ∧ switchId < st.nextSwitchId) :
    ensureSwitchExists st switchId = Except.ok () := by
  unfold ensureSwitchExists
  rw [if_neg (by omega)]

/-- Helper: the existence check fails on non-existing ids. -/
lemma ensureSwitchExists_error (st : ContractState) (switchId : Nat)
    (h : switchId = 0 ∨ switchId ≥ st.nextSwitchId) :
    ensureSwitchExists st switchId = Except.error "Switch does not exist" := by
  unfold ensureSwitchExists
  rw [if_pos h]

/-- Helper: the ownership check passes for the stored owner. -/
lemma ensureOwner_ok (ctx : Ctx) (st : ContractState) (switchId : Nat)
    (h : ctx.sender = st.switchOwner switchId) :
    ensureOwner ctx st switchId = Except.ok () := by
  unfold ensureOwner
  rw [if_neg (by simp [h])]

/-- Helper: the ownership check fails for any other caller. -/
lemma ensureOwner_error (ctx : Ctx) (st : ContractState) (switchId : Nat)
    (h : ctx.sender ≠ st.switchOwner switchId) :
    ensureOwner ctx st switchId = Except.error "Only owner can call this method" := by
  unfold ensureOwner
  rw [if_pos h]

/-- Helper: the active-status check passes exactly on ACTIVE records. -/
lemma ensureActive_ok (st : ContractState) (switchId : Nat)
    (h : st.switchStatus switchId = STATUS_ACTIVE) :
    ensureActive st switchId = Except.ok () := by
  unfold ensureActive
  rw [if_neg (by simp [h])]

/-- Helper: the active-status check fails on non-ACTIVE records. -/
lemma ensureActive_error (st : ContractState) (switchId : Nat)
    (h : st.switchStatus switchId ≠ STATUS_ACTIVE) :
    ensureActive st switchId = Except.error "Switch is not active" := by
  unfold ensureActive
  rw [if_pos h]

/-- Helper: checked addition succeeds below the modulus. -/
lemma SafeMathAdd_ok (a b : Nat) (h : a + b < U256MOD) :
    SafeMathAdd a b = Except.ok (a + b) := by
  unfold SafeMathAdd
  rw [if_neg (by omega)]

/-- Helper: checked addition fails at or above the modulus. -/
lemma SafeMathAdd_error (a b : Nat) (h : a + b ≥ U256MOD) :
    SafeMathAdd a b = Except.error "SafeMath: addition overflow" := by
  unfold SafeMathAdd
  rw [if_pos h]

/-- C3: trigger gating.  For every existing switch whose stored status is
neither TRIGGERED nor CANCELLED: `trigger` fails whenever the current block
is at or before `lastCheckin + interval`; it succeeds whenever the current
block is strictly greater, setting status = TRIGGERED and
triggerBlock = current block; after such a success every further `trigger`
on that id, under any context, fails with the already-triggered error; and
`trigger` imposes no caller constraint (its outcome does not depend on the
sender). -/
theorem trigger_gating (ctx : Ctx) (st : ContractState) (switchId : Nat)
    (hex : 1 ≤ switchId ∧ switchId < st.nextSwitchId)
    (hnt : st.switchStatus switchId ≠ STATUS_TRIGGERED)
    (hnc : st.switchStatus switchId ≠ STATUS_CANCELLED)
    (hblk : ctx.currentBlock < U256MOD) :
    (ctx.currentBlock ≤ st.switchLastCheckin switchId + st.switchInterval switchId →
      ∀ st2, trigger ctx st switchId ≠ Except.ok st2)
    ∧ (ctx.currentBlock > st.switchLastCheckin switchId + st.switchInterval switchId →
      trigger ctx st switchId = Except.ok { st with
        switchStatus := updMap st.switchStatus switchId STATUS_TRIGGERED,
        switchTriggerBlock := updMap st.switchTriggerBlock switchId ctx.currentBlock })
    ∧ (∀ st2, trigger ctx st switchId = Except.ok st2 →
      ∀ ctx2, trigger ctx2 st2 switchId = Except.error "Switch already triggered")
    ∧ (∀ sender2,
        trigger { currentBlock := ctx.currentBlock, sender := sender2 } st switchId
          = trigger ctx st switchId) := by
  have hok : ensureSwitchExists st switchId = Except.ok () :=
    ensureSwitchExists_ok st switchId hex
  have hsucc : ctx.currentBlock > st.switchLastCheckin switchId + st.switchInterval switchId →
      trigger ctx st switchId = Except.ok { st with
        switchStatus := updMap st.switchStatus switchId STATUS_TRIGGERED,
        switchTriggerBlock := updMap st.switchTriggerBlock switchId ctx.currentBlock } := by
    intro hgt
    have hnov : st.switchLastCheckin switchId + st.switchInterval switchId < U256MOD := by
      omega
    simp only [trigger, hok, SafeMathAdd_ok _ _ hnov]
    rw [if_neg hnt, if_neg hnc, if_neg (by omega)]
  refine ⟨?_, hsucc, ?_, ?_⟩
  · intro hle st2 hcontra
    simp only [trigger, hok] at hcontra
    rw [if_neg hnt, if_neg hnc] at hcontra
    by_cases hov : st.switchLastCheckin switchId + st.switchInterval switchId ≥ U256MOD
    · rw [SafeMathAdd_error _ _ hov] at hcontra
      exact Except.noConfusion hcontra
    · rw [SafeMathAdd_ok _ _ (by omega)] at hcontra
      simp only [] at hcontra
      rw [if_pos hle] at hcontra
      exact Except.noConfusion hcontra
  · intro st2 hok2 ctx2
    simp only [trigger, hok] at hok2
    rw [if_neg hnt, if_neg hnc] at hok2
    by_cases hov : st.switchLastCheckin switchId + st.switchInterval switchId ≥ U256MOD
    · rw [SafeMathAdd_error _ _ hov] at hok2
      exact absurd hok2 (by simp)
    · rw [SafeMathAdd_ok _ _ (by omega)] at hok2
      simp only [] at hok2
      by_cases hle : ctx.currentBlock ≤ st.switchLastCheckin switchId + st.switchInterval switchId
      · rw [if_pos hle] at hok2
        exact absurd hok2 (by simp)
      · rw [if_neg hle] at hok2
        have hst2 : st2 = { st with
            switchStatus := updMap st.switchStatus switchId STATUS_TRIGGERED,
            switchTriggerBlock := updMap st.switchTriggerBlock switchId ctx.currentBlock } := by
          exact ((Except.ok.injEq _ _).mp hok2).symm
        subst hst2
        have hok3 : ensureSwitchExists { st with
            switchStatus := updMap st.switchStatus switchId STATUS_TRIGGERED,
            switchTriggerBlock := updMap st.switchTriggerBlock switchId ctx.currentBlock }
            switchId = Except.ok () := ensureSwitchExists_ok _ _ (by simpa using hex)
        simp only [trigger, hok3]
        rw [if_pos (by simp [updMap])]
  · intro sender2
    rfl

/-- Helper: an updated map reads the written value at the written key. -/
lemma updMap_self (m : Nat → Nat) (k v : Nat) : updMap m k v k = v := by
  simp [updMap]

/-- Helper: writing the same value twice at one key collapses. -/
lemma updMap_idem (m : Nat → Nat) (k v : Nat) :
    updMap (updMap m k v) k v = updMap m k v := by
  funext x
  unfold updMap
  by_cases h : x = k <;> simp [h]

/-- Concrete demonstration state: one existing switch (id 1) owned by
account 7 with beneficiary 8, interval 10, grace period 5, last checkin at
block 100, status ACTIVE, no stored chunks. -/
def demoState : ContractState where
  nextSwitchId := 2
  switchOwner := fun _ => 7
  switchBeneficiary := fun _ => 8
  switchInterval := fun _ => 10
  switchGracePeriod := fun _ => 5
  switchLastCheckin := fun _ => 100
  switchStatus := fun _ => 0
  switchTriggerBlock := fun _ => 0
  switchChunkCount := fun _ => 0
  ownerSwitchCount := fun _ => 0
  ownerSwitchIndex := fun _ => 0
  switchEncryptedKey := fun _ _ => 0
  switchDataChunks := fun _ _ => 0

/-- C3 witness: the gating law applied to the concrete switch of `demoState`
(interval 10, last checkin 100) at block 111 with caller 42, who is not the
owner. -/
theorem trigger_gating_witness :
    ((111 : Nat) ≤ demoState.switchLastCheckin 1 + demoState.switchInterval 1 →
      ∀ st2, trigger { currentBlock := 111, sender := 42 } demoState 1 ≠ Except.ok st2)
    ∧ ((111 : Nat) > demoState.switchLastCheckin 1 + demoState.switchInterval 1 →
      trigger { currentBlock := 111, sender := 42 } demoState 1 = Except.ok { demoState with
        switchStatus := updMap demoState.switchStatus 1 STATUS_TRIGGERED,
        switchTriggerBlock := updMap demoState.switchTriggerBlock 1 111 })
    ∧ (∀ st2, trigger { currentBlock := 111, sender := 42 } demoState 1 = Except.ok st2 →
      ∀ ctx2, trigger ctx2 st2 1 = Except.error "Switch already triggered")
    ∧ (∀ sender2,
        trigger { currentBlock := 111, sender := sender2 } demoState 1
          = trigger { currentBlock := 111, sender := 42 } demoState 1) :=
  trigger_gating { currentBlock := 111, sender := 42 } demoState 1 (by decide) (by decide)
    (by decide) (by decide)

/-- C4 (amended): cancel window and effect.  For every existing switch and a
call by the record's owner, `cancel` succeeds if and only if the status is
TRIGGERED, the current block is at most `triggerBlock + gracePeriod`, and
that checked deadline addition does not overflow (`< 2 ^ 256`); on success
the poststate has status ACTIVE, lastCheckin = current block and
triggerBlock = 0 and is a fixed point of `checkin` at the cancel block, so
`isExpired` and a subsequent `trigger` behave exactly as after a fresh
checkin at that block. -/
theorem cancel_window (ctx : Ctx) (st : ContractState) (switchId : Nat)
    (hex : 1 ≤ switchId ∧ switchId < st.nextSwitchId)
    (hown : ctx.sender = st.switchOwner switchId) :
    ((∃ st2, cancel ctx st switchId = Except.ok st2) ↔
      (st.switchStatus switchId = STATUS_TRIGGERED
        ∧ ctx.currentBlock ≤ st.switchTriggerBlock switchId + st.switchGracePeriod switchId
        ∧ st.switchTriggerBlock switchId + st.switchGracePeriod switchId < U256MOD))
    ∧ (∀ st2, cancel ctx st switchId = Except.ok st2 →
        st2 = { st with
          switchStatus := updMap st.switchStatus switchId STATUS_ACTIVE,
          switchLastCheckin := updMap st.switchLastCheckin switchId ctx.currentBlock,
          switchTriggerBlock := updMap st.switchTriggerBlock switchId 0 }
        ∧ checkin ctx st2 switchId = Except.ok st2) := by
  have hok : ensureSwitchExists st switchId = Except.ok () :=
    ensureSwitchExists_ok st switchId hex
  have hoown : ensureOwner ctx st switchId = Except.ok () :=
    ensureOwner_ok ctx st switchId hown
  have hshape : ∀ st2, cancel ctx st switchId = Except.ok st2 →
      st.switchStatus switchId = STATUS_TRIGGERED
        ∧ ctx.currentBlock ≤ st.switchTriggerBlock switchId + st.switchGracePeriod switchId
        ∧ st.switchTriggerBlock switchId + st.switchGracePeriod switchId < U256MOD
        ∧ st2 = { st with
            switchStatus := updMap st.switchStatus switchId STATUS_ACTIVE,
            switchLastCheckin := updMap st.switchLastCheckin switchId ctx.currentBlock,
            switchTriggerBlock := updMap st.switchTriggerBlock switchId 0 } := by
    intro st2 h2
    simp only [cancel, hok, hoown] at h2
    by_cases htr : st.switchStatus switchId ≠ STATUS_TRIGGERED
    · rw [if_pos htr] at h2
      exact absurd h2 (by simp)
    · rw [if_neg htr] at h2
      push_neg at htr
      by_cases hov : st.switchTriggerBlock switchId + st.switchGracePeriod switchId ≥ U256MOD
      · rw [SafeMathAdd_error _ _ hov] at h2
        exact absurd h2 (by simp)
      · rw [SafeMathAdd_ok _ _ (by omega)] at h2
        simp only [] at h2
        by_cases hgt : ctx.currentBlock >
            st.switchTriggerBlock switchId + st.switchGracePeriod switchId
        · rw [if_pos hgt] at h2
          exact absurd h2 (by simp)
        · rw [if_neg hgt] at h2
          exact ⟨htr, by omega, by omega, ((Except.ok.injEq _ _).mp h2).symm⟩
  constructor
  · constructor
    · rintro ⟨st2, h2⟩
      obtain ⟨ha, hb, hc, _⟩ := hshape st2 h2
      exact ⟨ha, hb, hc⟩
    · rintro ⟨htr, hle, hov⟩
      refine ⟨{ st with
        switchStatus := updMap st.switchStatus switchId STATUS_ACTIVE,
        switchLastCheckin := updMap st.switchLastCheckin switchId ctx.currentBlock,
        switchTriggerBlock := updMap st.switchTriggerBlock switchId 0 }, ?_⟩
      simp only [cancel, hok, hoown]
      rw [if_neg (by simp [htr]), SafeMathAdd_ok _ _ hov]
      simp only []
      rw [if_neg (by omega)]
  · intro st2 h2
    obtain ⟨htr, hle, hov, hst2⟩ := hshape st2 h2
    refine ⟨hst2, ?_⟩
    subst hst2
    have hok2 : ensureSwitchExists { st with
        switchStatus := updMap st.switchStatus switchId STATUS_ACTIVE,
        switchLastCheckin := updMap st.switchLastCheckin switchId ctx.currentBlock,
        switchTriggerBlock := updMap st.switchTriggerBlock switchId 0 } switchId
        = Except.ok () := ensureSwitchExists_ok _ _ (by simpa using hex)
    have hoown2 : ensureOwner ctx { st with
        switchStatus := updMap st.switchStatus switchId STATUS_ACTIVE,
        switchLastCheckin := updMap st.switchLastCheckin switchId ctx.currentBlock,
        switchTriggerBlock := updMap st.switchTriggerBlock switchId 0 } switchId
        = Except.ok () := ensureOwner_ok _ _ _ (by simpa using hown)
    have hact2 : ensureActive { st with
        switchStatus := updMap st.switchStatus switchId STATUS_ACTIVE,
        switchLastCheckin := updMap st.switchLastCheckin switchId ctx.currentBlock,
        switchTriggerBlock := updMap st.switchTriggerBlock switchId 0 } switchId
        = Except.ok () := ensureActive_ok _ _ (by simp [updMap])
    simp only [checkin, hok2, hoown2, hact2]
    congr 1
    congr 1
    exact updMap_idem st.switchLastCheckin switchId ctx.currentBlock

/-- Demonstration state for the cancel overflow corner: switch 1 exists, is
owned by account 7, was triggered at block 2, and has grace period
`2 ^ 256 - 1` (a legal creation argument, since only zero is rejected). -/
def demoOverflowState : ContractState where
  nextSwitchId := 2
  switchOwner := fun _ => 7
  switchBeneficiary := fun _ => 8
  switchInterval := fun _ => 1
  switchGracePeriod := fun _ => 2 ^ 256 - 1
  switchLastCheckin := fun _ => 0
  switchStatus := fun _ => 1
  switchTriggerBlock := fun _ => 2
  switchChunkCount := fun _ => 0
  ownerSwitchCount := fun _ => 0
  ownerSwitchIndex := fun _ => 0
  switchEncryptedKey := fun _ _ => 0
  switchDataChunks := fun _ _ => 0

/-- C4 counterexample: at block 5 the record's owner (account 7) calls
`cancel` on the existing switch 1, whose status is TRIGGERED and whose
current block 5 is at most `triggerBlock + gracePeriod = 2 + 2 ^ 256 - 1`,
so the claim as stated requires success; the code instead aborts inside the
checked deadline addition, so the call fails. -/
theorem cancel_window_counterexample :
    (1 ≤ 1 ∧ 1 < demoOverflowState.nextSwitchId)
      ∧ (7 : Nat) = demoOverflowState.switchOwner 1
      ∧ demoOverflowState.switchStatus 1 = STATUS_TRIGGERED
      ∧ (5 : Nat) ≤ demoOverflowState.switchTriggerBlock 1 + demoOverflowState.switchGracePeriod 1
      ∧ cancel { currentBlock := 5, sender := 7 } demoOverflowState 1
          = Except.error "SafeMath: addition overflow" := by
  refine ⟨by decide, rfl, rfl, by decide, ?_⟩
  rfl

/-- Demonstration state for a successful cancel: switch 1 is TRIGGERED at
block 111 with grace period 5, owner 7. -/
def demoTriggeredState : ContractState :=
  { demoState with
    switchStatus := fun _ => 1,
    switchTriggerBlock := fun _ => 111 }

/-- C4 witness: the amended cancel-window law applied to the concrete
triggered switch of `demoTriggeredState` with owner 7 calling at block 115
(within the grace window 111 + 5). -/
theorem cancel_window_witness :
    ((∃ st2, cancel { currentBlock := 115, sender := 7 } demoTriggeredState 1 = Except.ok st2) ↔
      (demoTriggeredState.switchStatus 1 = STATUS_TRIGGERED
        ∧ (115 : Nat) ≤ demoTriggeredState.switchTriggerBlock 1
            + demoTriggeredState.switchGracePeriod 1
        ∧ demoTriggeredState.switchTriggerBlock 1 + demoTriggeredState.switchGracePeriod 1
            < U256MOD))
    ∧ (∀ st2, cancel { currentBlock := 115, sender := 7 } demoTriggeredState 1
          = Except.ok st2 →
        st2 = { demoTriggeredState with
          switchStatus := updMap demoTriggeredState.switchStatus 1 STATUS_ACTIVE,
          switchLastCheckin := updMap demoTriggeredState.switchLastCheckin 1 115,
          switchTriggerBlock := updMap demoTriggeredState.switchTriggerBlock 1 0 }
        ∧ checkin { currentBlock := 115, sender := 7 } st2 1 = Except.ok st2) :=
  cancel_window { currentBlock := 115, sender := 7 } demoTriggeredState 1 (by decide) rfl

/-- Helper: a successful `checkin` only rewrites the last-checkin field. -/
lemma checkin_ok_shape (ctx : Ctx) (st : ContractState) (switchId : Nat)
    (st2 : ContractState) (h : checkin ctx st switchId = Except.ok st2) :
    (1 ≤ switchId ∧ switchId < st.nextSwitchId)
      ∧ st2 = { st with
          switchLastCheckin := updMap st.switchLastCheckin switchId ctx.currentBlock } := by
  unfold checkin at h
  by_cases hex : switchId = 0 ∨ switchId ≥ st.nextSwitchId
  · rw [ensureSwitchExists_error st switchId hex] at h
    exact absurd h (by simp)
  · rw [ensureSwitchExists_ok st switchId (by omega)] at h
    refine ⟨by omega, ?_⟩
    cases h2 : ensureOwner ctx st switchId with
    | error e =>
      rw [h2] at h
      exact absurd h (by simp)
    | ok u2 =>
      rw [h2] at h
      cases h3 : ensureActive st switchId with
      | error e =>
        rw [h3] at h
        exact absurd h (by simp)
      | ok u3 =>
        rw [h3] at h
        exact ((Except.ok.injEq _ _).mp h).symm

/-- Helper: a successful `createSwitch` returns the old counter value,
initializes the eight fields of that record (status ACTIVE, triggerBlock 0,
chunkCount 0), appends to the ownership index and increments the counter by
exactly one. -/
lemma createSwitch_ok_shape (ctx : Ctx) (st : ContractState)
    (beneficiary interval gracePeriod : Nat) (r : Nat × ContractState)
    (h : createSwitch ctx st beneficiary interval gracePeriod = Except.ok r) :
    r.1 = st.nextSwitchId
      ∧ r.2 = { st with
          switchOwner := updMap st.switchOwner st.nextSwitchId ctx.sender,
          switchBeneficiary := updMap st.switchBeneficiary st.nextSwitchId beneficiary,
          switchInterval := updMap st.switchInterval st.nextSwitchId interval,
          switchGracePeriod := updMap st.switchGracePeriod st.nextSwitchId gracePeriod,
          switchLastCheckin := updMap st.switchLastCheckin st.nextSwitchId ctx.currentBlock,
          switchStatus := updMap st.switchStatus st.nextSwitchId STATUS_ACTIVE,
          switchTriggerBlock := updMap st.switchTriggerBlock st.nextSwitchId 0,
          switchChunkCount := updMap st.switchChunkCount st.nextSwitchId 0,
          ownerSwitchIndex := updMapL st.ownerSwitchIndex
            (addressIndexSubPointer ctx.sender (st.ownerSwitchCount ctx.sender))
            st.nextSwitchId,
          ownerSwitchCount := updMap st.ownerSwitchCount ctx.sender
            (st.ownerSwitchCount ctx.sender + 1),
          nextSwitchId := st.nextSwitchId + 1 } := by
  unfold createSwitch at h
  by_cases h1 : beneficiary = 0
  · rw [if_pos h1] at h
    exact absurd h (by simp)
  · rw [if_neg h1] at h
    by_cases h2 : interval = 0
    · rw [if_pos h2] at h
      exact absurd h (by simp)
    · rw [if_neg h2] at h
      by_cases h3 : gracePeriod = 0
      · rw [if_pos h3] at h
        exact absurd h (by simp)
      · rw [if_neg h3] at h
        by_cases h4 : st.ownerSwitchCount ctx.sender + 1 ≥ U256MOD
        · rw [SafeMathAdd_error _ _ h4] at h
          exact absurd h (by simp)
        · rw [SafeMathAdd_ok _ _ (by omega)] at h
          by_cases h5 : st.nextSwitchId + 1 ≥ U256MOD
          · rw [SafeMathAdd_error _ _ h5] at h
            exact absurd h (by simp)
          · rw [SafeMathAdd_ok _ _ (by omega)] at h
            have := ((Except.ok.injEq _ _).mp h).symm
            rw [this]
            exact ⟨rfl, rfl⟩

/-- Helper: a successful `storeData` happens only on an existing ACTIVE
record; it rewrites the chunk store and raises the chunk count to
`chunkIndex + 1` exactly when that exceeds the current count. -/
lemma storeData_ok_shape (ctx : Ctx) (st : ContractState) (switchId chunkIndex : Nat)
    (data : List Nat) (st2 : ContractState)
    (h : storeData ctx st switchId chunkIndex data = Except.ok st2) :
    (1 ≤ switchId ∧ switchId < st.nextSwitchId)
      ∧ st.switchStatus switchId = STATUS_ACTIVE
      ∧ chunkIndex + 1 < U256MOD
      ∧ ∃ chunks2, st2 = (if chunkIndex + 1 > st.switchChunkCount switchId then
          { st with
            switchDataChunks := chunks2,
            switchChunkCount := updMap st.switchChunkCount switchId (chunkIndex + 1) }
        else { st with switchDataChunks := chunks2 }) := by
  unfold storeData at h
  by_cases hex : switchId = 0 ∨ switchId ≥ st.nextSwitchId
  · rw [ensureSwitchExists_error st switchId hex] at h
    exact absurd h (by simp)
  · rw [ensureSwitchExists_ok st switchId (by omega)] at h
    cases h2 : ensureOwner ctx st switchId with
    | error e =>
      rw [h2] at h
      exact absurd h (by simp)
    | ok u2 =>
      rw [h2] at h
      by_cases h3 : st.switchStatus switchId = STATUS_ACTIVE
      · rw [ensureActive_ok st switchId h3] at h
        by_cases h4 : data.length = 0
        · rw [if_pos h4] at h
          exact absurd h (by simp)
        · rw [if_neg h4] at h
          cases h5 : storeMultiSlotBytes st.switchDataChunks switchDataChunksPointer
              (compoundSubPointer switchId chunkIndex) data with
          | error e =>
            rw [h5] at h
            exact absurd h (by simp)
          | ok chunks2 =>
            rw [h5] at h
            by_cases h6 : chunkIndex + 1 ≥ U256MOD
            · rw [SafeMathAdd_error _ _ h6] at h
              exact absurd h (by simp)
            · rw [SafeMathAdd_ok _ _ (by omega)] at h
              simp only [] at h
              refine ⟨by omega, h3, by omega, chunks2, ?_⟩
              by_cases h7 : chunkIndex + 1 > st.switchChunkCount switchId
              · rw [if_pos h7] at h
                rw [if_pos h7]
                exact ((Except.ok.injEq _ _).mp h).symm
              · rw [if_neg h7] at h
                rw [if_neg h7]
                exact ((Except.ok.injEq _ _).mp h).symm
      · rw [ensureActive_error st switchId h3] at h
        exact absurd h (by simp)

/-- Helper: a successful `storeDecryptionKey` only rewrites the
encrypted-key store. -/
lemma storeDecryptionKey_ok_shape (ctx : Ctx) (st : ContractState) (switchId : Nat)
    (key : List Nat) (st2 : ContractState)
    (h : storeDecryptionKey ctx st switchId key = Except.ok st2) :
    (1 ≤ switchId ∧ switchId < st.nextSwitchId)
      ∧ ∃ ks2, st2 = { st with switchEncryptedKey := ks2 } := by
  unfold storeDecryptionKey at h
  by_cases hex : switchId = 0 ∨ switchId ≥ st.nextSwitchId
  · rw [ensureSwitchExists_error st switchId hex] at h
    exact absurd h (by simp)
  · rw [ensureSwitchExists_ok st switchId (by omega)] at h
    cases h2 : ensureOwner ctx st switchId with
    | error e =>
      rw [h2] at h
      exact absurd h (by simp)
    | ok u2 =>
      rw [h2] at h
      cases h3 : ensureActive st switchId with
      | error e =>
        rw [h3] at h
        exact absurd h (by simp)
      | ok u3 =>
        rw [h3] at h
        by_cases h4 : key.length = 0
        · rw [if_pos h4] at h
          exact absurd h (by simp)
        · rw [if_neg h4] at h
          cases h5 : storeMultiSlotBytes st.switchEncryptedKey switchEncryptedKeyPointer
              (u256ToSubPointer switchId) key with
          | error e =>
            rw [h5] at h
            exact absurd h (by simp)
          | ok ks2 =>
            rw [h5] at h
            exact ⟨by omega, ks2, ((Except.ok.injEq _ _).mp h).symm⟩

/-- Helper: a successful `trigger` happens only on an existing record whose
status is neither TRIGGERED nor CANCELLED, and only rewrites status (to
TRIGGERED) and triggerBlock (to the current block). -/
lemma trigger_ok_shape (ctx : Ctx) (st : ContractState) (switchId : Nat)
    (st2 : ContractState) (h : trigger ctx st switchId = Except.ok st2) :
    (1 ≤ switchId ∧ switchId < st.nextSwitchId)
      ∧ st.switchStatus switchId ≠ STATUS_TRIGGERED
      ∧ st.switchStatus switchId ≠ STATUS_CANCELLED
      ∧ st2 = { st with
          switchStatus := updMap st.switchStatus switchId STATUS_TRIGGERED,
          switchTriggerBlock := updMap st.switchTriggerBlock switchId ctx.currentBlock } := by
  unfold trigger at h
  by_cases hex : switchId = 0 ∨ switchId ≥ st.nextSwitchId
  · rw [ensureSwitchExists_error st switchId hex] at h
    exact absurd h (by simp)
  · rw [ensureSwitchExists_ok st switchId (by omega)] at h
    by_cases h1 : st.switchStatus switchId = STATUS_TRIGGERED
    · rw [if_pos h1] at h
      exact absurd h (by simp)
    · rw [if_neg h1] at h
      by_cases h2 : st.switchStatus switchId = STATUS_CANCELLED
      · rw [if_pos h2] at h
        exact absurd h (by simp)
      · rw [if_neg h2] at h
        by_cases h3 : st.switchLastCheckin switchId + st.switchInterval switchId ≥ U256MOD
        · rw [SafeMathAdd_error _ _ h3] at h
          exact absurd h (by simp)
        · rw [SafeMathAdd_ok _ _ (by omega)] at h
          simp only [] at h
          by_cases h4 : ctx.currentBlock ≤ st.switchLastCheckin switchId + st.switchInterval switchId
          · rw [if_pos h4] at h
            exact absurd h (by simp)
          · rw [if_neg h4] at h
            exact ⟨by omega, h1, h2, ((Except.ok.injEq _ _).mp h).symm⟩

/-- Helper: a successful `cancel` happens only on an existing TRIGGERED
record, and only rewrites status (to ACTIVE), lastCheckin (to the current
block) and triggerBlock (to 0). -/
lemma cancel_ok_shape (ctx : Ctx) (st : ContractState) (switchId : Nat)
    (st2 : ContractState) (h : cancel ctx st switchId = Except.ok st2) :
    (1 ≤ switchId ∧ switchId < st.nextSwitchId)
      ∧ st.switchStatus switchId = STATUS_TRIGGERED
      ∧ st2 = { st with
          switchStatus := updMap st.switchStatus switchId STATUS_ACTIVE,
          switchLastCheckin := updMap st.switchLastCheckin switchId ctx.currentBlock,
          switchTriggerBlock := updMap st.switchTriggerBlock switchId 0 } := by
  unfold cancel at h
  by_cases hex : switchId = 0 ∨ switchId ≥ st.nextSwitchId
  · rw [ensureSwitchExists_error st switchId hex] at h
    exact absurd h (by simp)
  · rw [ensureSwitchExists_ok st switchId (by omega)] at h
    cases h2 : ensureOwner ctx st switchId with
    | error e =>
      rw [h2] at h
      exact absurd h (by simp)
    | ok u2 =>
      rw [h2] at h
      by_cases h3 : st.switchStatus switchId ≠ STATUS_TRIGGERED
      · rw [if_pos h3] at h
        exact absurd h (by simp)
      · rw [if_neg h3] at h
        push_neg at h3
        by_cases h4 : st.switchTriggerBlock switchId + st.switchGracePeriod switchId ≥ U256MOD
        · rw [SafeMathAdd_error _ _ h4] at h
          exact absurd h (by simp)
        · rw [SafeMathAdd_ok _ _ (by omega)] at h
          simp only [] at h
          by_cases h5 : ctx.currentBlock >
              st.switchTriggerBlock switchId + st.switchGracePeriod switchId
          · rw [if_pos h5] at h
            exact absurd h (by simp)
          · rw [if_neg h5] at h
            exact ⟨by omega, h3, ((Except.ok.injEq _ _).mp h).symm⟩

/-- Helper: a successful `updateBeneficiary` only rewrites the beneficiary
field. -/
lemma updateBeneficiary_ok_shape (ctx : Ctx) (st : ContractState)
    (switchId newBeneficiary : Nat) (st2 : ContractState)
    (h : updateBeneficiary ctx st switchId newBeneficiary = Except.ok st2) :
    (1 ≤ switchId ∧ switchId < st.nextSwitchId)
      ∧ st2 = { st with
          switchBeneficiary := updMap st.switchBeneficiary switchId newBeneficiary } := by
  unfold updateBeneficiary at h
  by_cases hex : switchId = 0 ∨ switchId ≥ st.nextSwitchId
  · rw [ensureSwitchExists_error st switchId hex] at h
    exact absurd h (by simp)
  · rw [ensureSwitchExists_ok st switchId (by omega)] at h
    cases h2 : ensureOwner ctx st switchId with
    | error e =>
      rw [h2] at h
      exact absurd h (by simp)
    | ok u2 =>
      rw [h2] at h
      cases h3 : ensureActive st switchId with
      | error e =>
        rw [h3] at h
        exact absurd h (by simp)
      | ok u3 =>
        rw [h3] at h
        by_cases h4 : newBeneficiary = 0
        · rw [if_pos h4] at h
          exact absurd h (by simp)
        · rw [if_neg h4] at h
          exact ⟨by omega, ((Except.ok.injEq _ _).mp h).symm⟩

/-- Helper: a successful `updateInterval` only rewrites the interval
field. -/
lemma updateInterval_ok_shape (ctx : Ctx) (st : ContractState)
    (switchId newInterval : Nat) (st2 : ContractState)
    (h : updateInterval ctx st switchId newInterval = Except.ok st2) :
    (1 ≤ switchId ∧ switchId < st.nextSwitchId)
      ∧ st2 = { st with
          switchInterval := updMap st.switchInterval switchId newInterval } := by
  unfold updateInterval at h
  by_cases hex : switchId = 0 ∨ switchId ≥ st.nextSwitchId
  · rw [ensureSwitchExists_error st switchId hex] at h
    exact absurd h (by simp)
  · rw [ensureSwitchExists_ok st switchId (by omega)] at h
    cases h2 : ensureOwner ctx st switchId with
    | error e =>
      rw [h2] at h
      exact absurd h (by simp)
    | ok u2 =>
      rw [h2] at h
      cases h3 : ensureActive st switchId with
      | error e =>
        rw [h3] at h
        exact absurd h (by simp)
      | ok u3 =>
        rw [h3] at h
        by_cases h4 : newInterval = 0
        · rw [if_pos h4] at h
          exact absurd h (by simp)
        · rw [if_neg h4] at h
          exact ⟨by omega, ((Except.ok.injEq _ _).mp h).symm⟩

/-- C6: existence gate.  `getSwitch` succeeds exactly when
`1 ≤ id < nextSwitchId`, and every public operation taking a switchId
(checkin, storeData, storeDecryptionKey, trigger, cancel,
updateBeneficiary, updateInterval, getData, getDecryptionKey, isExpired)
fails with the does-not-exist error whenever `id = 0` or
`id ≥ nextSwitchId`. -/
theorem existence_gate (ctx : Ctx) (st : ContractState)
    (switchId chunkIndex newBeneficiary newInterval : Nat) (data : List Nat) :
    ((∃ r, getSwitch st switchId = Except.ok r) ↔
      (1 ≤ switchId ∧ switchId < st.nextSwitchId))
    ∧ (switchId = 0 ∨ switchId ≥ st.nextSwitchId →
        checkin ctx st switchId = Except.error "Switch does not exist"
        ∧ storeData ctx st switchId chunkIndex data = Except.error "Switch does not exist"
        ∧ storeDecryptionKey ctx st switchId data = Except.error "Switch does not exist"
        ∧ trigger ctx st switchId = Except.error "Switch does not exist"
        ∧ cancel ctx st switchId = Except.error "Switch does not exist"
        ∧ updateBeneficiary ctx st switchId newBeneficiary
            = Except.error "Switch does not exist"
        ∧ updateInterval ctx st switchId newInterval = Except.error "Switch does not exist"
        ∧ getData st switchId chunkIndex = Except.error "Switch does not exist"
        ∧ getDecryptionKey st switchId = Except.error "Switch does not exist"
        ∧ isExpired ctx st switchId = Except.error "Switch does not exist") := by
  constructor
  · constructor
    · rintro ⟨r, hr⟩
      by_contra hnot
      have h : switchId = 0 ∨ switchId ≥ st.nextSwitchId := by omega
      simp only [getSwitch, ensureSwitchExists_error st switchId h] at hr
      exact Except.noConfusion hr
    · intro h
      refine ⟨(st.switchOwner switchId, st.switchBeneficiary switchId,
        st.switchInterval switchId, st.switchGracePeriod switchId,
        st.switchLastCheckin switchId, st.switchStatus switchId,
        st.switchTriggerBlock switchId, st.switchChunkCount switchId), ?_⟩
      simp only [getSwitch, ensureSwitchExists_ok st switchId h]
  · intro h
    have he := ensureSwitchExists_error st switchId h
    simp only [checkin, storeData, storeDecryptionKey, trigger, cancel, updateBeneficiary,
      updateInterval, getData, getDecryptionKey, isExpired, he]
    simp

/-- C6 witness: the existence gate at the concrete `demoState`, where id 1
exists (so `getSwitch` succeeds) and id 0 makes all ten operations fail
with the does-not-exist error. -/
theorem existence_gate_witness :
    ((∃ r, getSwitch demoState 1 = Except.ok r) ↔ (1 ≤ 1 ∧ 1 < demoState.nextSwitchId))
    ∧ (checkin { currentBlock := 1, sender := 7 } demoState 0
          = Except.error "Switch does not exist"
      ∧ storeData { currentBlock := 1, sender := 7 } demoState 0 0 [1]
          = Except.error "Switch does not exist"
      ∧ storeDecryptionKey { currentBlock := 1, sender := 7 } demoState 0 [1]
          = Except.error "Switch does not exist"
      ∧ trigger { currentBlock := 1, sender := 7 } demoState 0
          = Except.error "Switch does not exist"
      ∧ cancel { currentBlock := 1, sender := 7 } demoState 0
          = Except.error "Switch does not exist"
      ∧ updateBeneficiary { currentBlock := 1, sender := 7 } demoState 0 8
          = Except.error "Switch does not exist"
      ∧ updateInterval { currentBlock := 1, sender := 7 } demoState 0 10
          = Except.error "Switch does not exist"
      ∧ getData demoState 0 0 = Except.error "Switch does not exist"
      ∧ getDecryptionKey demoState 0 = Except.error "Switch does not exist"
      ∧ isExpired { currentBlock := 1, sender := 7 } demoState 0
          = Except.error "Switch does not exist") :=
  ⟨(existence_gate { currentBlock := 1, sender := 7 } demoState 1 0 8 10 [1]).1,
    (existence_gate { currentBlock := 1, sender := 7 } demoState 0 0 8 10 [1]).2 (by decide)⟩

/-- C7: access control.  For every existing switch: each of checkin,
storeData, storeDecryptionKey, cancel, updateBeneficiary and updateInterval
fails with the authorization error whenever the caller is any account other
than the stored owner, while `trigger` succeeds for every caller (owner or
not) once its status and deadline preconditions hold. -/
theorem access_control (ctx : Ctx) (st : ContractState)
    (switchId chunkIndex newBeneficiary newInterval : Nat) (data : List Nat)
    (hex : 1 ≤ switchId ∧ switchId < st.nextSwitchId) :
    (ctx.sender ≠ st.switchOwner switchId →
      checkin ctx st switchId = Except.error "Only owner can call this method"
      ∧ storeData ctx st switchId chunkIndex data
          = Except.error "Only owner can call this method"
      ∧ storeDecryptionKey ctx st switchId data
          = Except.error "Only owner can call this method"
      ∧ cancel ctx st switchId = Except.error "Only owner can call this method"
      ∧ updateBeneficiary ctx st switchId newBeneficiary
          = Except.error "Only owner can call this method"
      ∧ updateInterval ctx st switchId newInterval
          = Except.error "Only owner can call this method")
    ∧ (∀ sender2,
        st.switchStatus switchId ≠ STATUS_TRIGGERED →
        st.switchStatus switchId ≠ STATUS_CANCELLED →
        ctx.currentBlock > st.switchLastCheckin switchId + st.switchInterval switchId →
        ctx.currentBlock < U256MOD →
        trigger { currentBlock := ctx.currentBlock, sender := sender2 } st switchId
          = Except.ok { st with
              switchStatus := updMap st.switchStatus switchId STATUS_TRIGGERED,
              switchTriggerBlock := updMap st.switchTriggerBlock switchId ctx.currentBlock }) := by
  have hok := ensureSwitchExists_ok st switchId hex
  constructor
  · intro hno
    have he := ensureOwner_error ctx st switchId hno
    simp only [checkin, storeData, storeDecryptionKey, cancel, updateBeneficiary,
      updateInterval, hok, he]
    simp
  · intro sender2 h1 h2 h3 h4
    have hnov : st.switchLastCheckin switchId + st.switchInterval switchId < U256MOD := by
      omega
    simp only [trigger, hok, SafeMathAdd_ok _ _ hnov]
    rw [if_neg h1, if_neg h2, if_neg (by omega)]

/-- C7 witness: on `demoState` (owner 7) the six owner-gated operations all
fail for caller 42, and `trigger` succeeds for caller 42 at block 111. -/
theorem access_control_witness :
    ((42 : Nat) ≠ demoState.switchOwner 1 →
      checkin { currentBlock := 111, sender := 42 } demoState 1
          = Except.error "Only owner can call this method"
      ∧ storeData { currentBlock := 111, sender := 42 } demoState 1 0 [1]
          = Except.error "Only owner can call this method"
      ∧ storeDecryptionKey { currentBlock := 111, sender := 42 } demoState 1 [1]
          = Except.error "Only owner can call this method"
      ∧ cancel { currentBlock := 111, sender := 42 } demoState 1
          = Except.error "Only owner can call this method"
      ∧ updateBeneficiary { currentBlock := 111, sender := 42 } demoState 1 8
          = Except.error "Only owner can call this method"
      ∧ updateInterval { currentBlock := 111, sender := 42 } demoState 1 10
          = Except.error "Only owner can call this method")
    ∧ (∀ sender2,
        demoState.switchStatus 1 ≠ STATUS_TRIGGERED →
        demoState.switchStatus 1 ≠ STATUS_CANCELLED →
        (111 : Nat) > demoState.switchLastCheckin 1 + demoState.switchInterval 1 →
        (111 : Nat) < U256MOD →
        trigger { currentBlock := 111, sender := sender2 } demoState 1
          = Except.ok { demoState with
              switchStatus := updMap demoState.switchStatus 1 STATUS_TRIGGERED,
              switchTriggerBlock := updMap demoState.switchTriggerBlock 1 111 }) :=
  access_control { currentBlock := 111, sender := 42 } demoState 1 0 8 10 [1] (by decide)

/-- Helper: effect of one step on the status map, under the status
invariant: at every id the stored status is unchanged, or the op is a
trigger of exactly that id (ACTIVE to TRIGGERED), or a cancel of exactly
that id (TRIGGERED to ACTIVE). -/
lemma step_status_cases (st : ContractState) (op : Op) (hinv : statusInv st)
    (switchId : Nat) :
    (step st op).switchStatus switchId = st.switchStatus switchId
    ∨ (∃ c, op = Op.opTrigger c switchId ∧ st.switchStatus switchId = STATUS_ACTIVE
        ∧ (step st op).switchStatus switchId = STATUS_TRIGGERED)
    ∨ (∃ c, op = Op.opCancel c switchId ∧ st.switchStatus switchId = STATUS_TRIGGERED
        ∧ (step st op).switchStatus switchId = STATUS_ACTIVE) := by
  obtain ⟨hinv1, hinv2⟩ := hinv
  cases op with
  | opCreateSwitch c b i g =>
    left
    simp only [step]
    cases hc : createSwitch c st b i g with
    | error e => rfl
    | ok r =>
      obtain ⟨h1, h2⟩ := createSwitch_ok_shape c st b i g r hc
      change r.2.switchStatus switchId = st.switchStatus switchId
      rw [h2]
      simp only [updMap]
      by_cases he : switchId = st.nextSwitchId
      · rw [if_pos he]
        exact (hinv2 switchId (Or.inr (by omega))).symm
      · rw [if_neg he]
  | opCheckin c switchId2 =>
    left
    simp only [step]
    cases hc : checkin c st switchId2 with
    | error e => rfl
    | ok st2 =>
      obtain ⟨h1, h2⟩ := checkin_ok_shape c st switchId2 st2 hc
      rw [h2]
  | opStoreData c switchId2 chunkIndex d =>
    left
    simp only [step]
    cases hc : storeData c st switchId2 chunkIndex d with
    | error e => rfl
    | ok st2 =>
      obtain ⟨h1, h2, h3, chunks2, h4⟩ := storeData_ok_shape c st switchId2 chunkIndex d st2 hc
      rw [h4]
      by_cases h5 : chunkIndex + 1 > st.switchChunkCount switchId2
      · rw [if_pos h5]
      · rw [if_neg h5]
  | opStoreDecryptionKey c switchId2 k =>
    left
    simp only [step]
    cases hc : storeDecryptionKey c st switchId2 k with
    | error e => rfl
    | ok st2 =>
      obtain ⟨h1, ks2, h2⟩ := storeDecryptionKey_ok_shape c st switchId2 k st2 hc
      rw [h2]
  | opTrigger c switchId2 =>
    simp only [step]
    cases hc : trigger c st switchId2 with
    | error e => exact Or.inl rfl
    | ok st2 =>
      obtain ⟨h1, h2, h3, h4⟩ := trigger_ok_shape c st switchId2 st2 hc
      by_cases he : switchId = switchId2
      · subst he
        refine Or.inr (Or.inl ⟨c, rfl, ?_, ?_⟩)
        · rcases hinv1 switchId with h | h
          · exact h
          · exact absurd h h2
        · rw [h4]
          simp [updMap]
      · refine Or.inl ?_
        rw [h4]
        simp only [updMap]
        rw [if_neg he]
  | opCancel c switchId2 =>
    simp only [step]
    cases hc : cancel c st switchId2 with
    | error e => exact Or.inl rfl
    | ok st2 =>
      obtain ⟨h1, h2, h3⟩ := cancel_ok_shape c st switchId2 st2 hc
      by_cases he : switchId = switchId2
      · subst he
        refine Or.inr (Or.inr ⟨c, rfl, h2, ?_⟩)
        rw [h3]
        simp [updMap]
      · refine Or.inl ?_
        rw [h3]
        simp only [updMap]
        rw [if_neg he]
  | opUpdateBeneficiary c switchId2 b =>
    left
    simp only [step]
    cases hc : updateBeneficiary c st switchId2 b with
    | error e => rfl
    | ok st2 =>
      obtain ⟨h1, h2⟩ := updateBeneficiary_ok_shape c st switchId2 b st2 hc
      rw [h2]
  | opUpdateInterval c switchId2 n =>
    left
    simp only [step]
    cases hc : updateInterval c st switchId2 n with
    | error e => rfl
    | ok st2 =>
      obtain ⟨h1, h2⟩ := updateInterval_ok_shape c st switchId2 n st2 hc
      rw [h2]

/-- Helper: next-id bookkeeping of one step: the counter never decreases,
and at ids other than a created one the status map is rewritten only by
trigger or cancel of an existing id. -/
lemma step_statusInv (st : ContractState) (op : Op) (hinv : statusInv st) :
    statusInv (step st op) := by
  obtain ⟨hinv1, hinv2⟩ := hinv
  cases op with
  | opCreateSwitch c b i g =>
    simp only [step]
    cases hc : createSwitch c st b i g with
    | error e => exact ⟨hinv1, hinv2⟩
    | ok r =>
      obtain ⟨h1, h2⟩ := createSwitch_ok_shape c st b i g r hc
      change statusInv r.2
      rw [h2]
      constructor
      · intro switchId
        simp only [updMap]
        by_cases he : switchId = st.nextSwitchId
        · rw [if_pos he]
          exact Or.inl rfl
        · rw [if_neg he]
          exact hinv1 switchId
      · intro switchId hbad
        simp only [updMap] at hbad ⊢
        by_cases he : switchId = st.nextSwitchId
        · rw [if_pos he]
        · rw [if_neg he]
          exact hinv2 switchId (by omega)
  | opCheckin c switchId2 =>
    simp only [step]
    cases hc : checkin c st switchId2 with
    | error e => exact ⟨hinv1, hinv2⟩
    | ok st2 =>
      obtain ⟨h1, h2⟩ := checkin_ok_shape c st switchId2 st2 hc
      rw [h2]
      exact ⟨hinv1, hinv2⟩
  | opStoreData c switchId2 chunkIndex d =>
    simp only [step]
    cases hc : storeData c st switchId2 chunkIndex d with
    | error e => exact ⟨hinv1, hinv2⟩
    | ok st2 =>
      obtain ⟨h1, h2, h3, chunks2, h4⟩ := storeData_ok_shape c st switchId2 chunkIndex d st2 hc
      rw [h4]
      by_cases h5 : chunkIndex + 1 > st.switchChunkCount switchId2
      · rw [if_pos h5]
        exact ⟨hinv1, hinv2⟩
      · rw [if_neg h5]
        exact ⟨hinv1, hinv2⟩
  | opStoreDecryptionKey c switchId2 k =>
    simp only [step]
    cases hc : storeDecryptionKey c st switchId2 k with
    | error e => exact ⟨hinv1, hinv2⟩
    | ok st2 =>
      obtain ⟨h1, ks2, h2⟩ := storeDecryptionKey_ok_shape c st switchId2 k st2 hc
      rw [h2]
      exact ⟨hinv1, hinv2⟩
  | opTrigger c switchId2 =>
    simp only [step]
    cases hc : trigger c st switchId2 with
    | error e => exact ⟨hinv1, hinv2⟩
    | ok st2 =>
      obtain ⟨h1, h2, h3, h4⟩ := trigger_ok_shape c st switchId2 st2 hc
      rw [h4]
      constructor
      · intro switchId
        simp only [updMap]
        by_cases he : switchId = switchId2
        · rw [if_pos he]
          exact Or.inr rfl
        · rw [if_neg he]
          exact hinv1 switchId
      · intro switchId hbad
        simp only [updMap] at hbad ⊢
        have he : ¬ switchId = switchId2 := by omega
        rw [if_neg he]
        exact hinv2 switchId hbad
  | opCancel c switchId2 =>
    simp only [step]
    cases hc : cancel c st switchId2 with
    | error e => exact ⟨hinv1, hinv2⟩
    | ok st2 =>
      obtain ⟨h1, h2, h3⟩ := cancel_ok_shape c st switchId2 st2 hc
      rw [h3]
      constructor
      · intro switchId
        simp only [updMap]
        by_cases he : switchId = switchId2
        · rw [if_pos he]
          exact Or.inl rfl
        · rw [if_neg he]
          exact hinv1 switchId
      · intro switchId hbad
        simp only [updMap] at hbad ⊢
        have he : ¬ switchId = switchId2 := by omega
        rw [if_neg he]
        exact hinv2 switchId hbad
  | opUpdateBeneficiary c switchId2 b =>
    simp only [step]
    cases hc : updateBeneficiary c st switchId2 b with
    | error e => exact ⟨hinv1, hinv2⟩
    | ok st2 =>
      obtain ⟨h1, h2⟩ := updateBeneficiary_ok_shape c st switchId2 b st2 hc
      rw [h2]
      exact ⟨hinv1, hinv2⟩
  | opUpdateInterval c switchId2 n =>
    simp only [step]
    cases hc : updateInterval c st switchId2 n with
    | error e => exact ⟨hinv1, hinv2⟩
    | ok st2 =>
      obtain ⟨h1, h2⟩ := updateInterval_ok_shape c st switchId2 n st2 hc
      rw [h2]
      exact ⟨hinv1, hinv2⟩

/-- Helper: the status invariant is preserved by whole operation
sequences. -/
lemma execOps_statusInv (ops : List Op) : ∀ st, statusInv st → statusInv (execOps st ops) := by
  induction ops with
  | nil =>
    intro st h
    exact h
  | cons op rest ih =>
    intro st h
    exact ih (step st op) (step_statusInv st op h)

/-- C5: CANCELLED is unreachable and transitions are restricted.  The
deployment state satisfies the status invariant (all stored statuses are
ACTIVE or TRIGGERED, with unborn records ACTIVE-zero); every sequence of
public operations preserves it, so no reachable record ever stores
CANCELLED; whenever a step changes some record's stored status, that step
is a trigger of exactly that record moving ACTIVE to TRIGGERED or a cancel
of exactly that record moving TRIGGERED to ACTIVE; and no single step ever
leaves the CANCELLED value in any status slot. -/
theorem status_machine :
    statusInv initialState
    ∧ (∀ st ops, statusInv st → statusInv (execOps st ops))
    ∧ (∀ st op, statusInv st → ∀ switchId,
        (step st op).switchStatus switchId ≠ st.switchStatus switchId →
          (∃ c, op = Op.opTrigger c switchId
            ∧ st.switchStatus switchId = STATUS_ACTIVE
            ∧ (step st op).switchStatus switchId = STATUS_TRIGGERED)
          ∨ (∃ c, op = Op.opCancel c switchId
            ∧ st.switchStatus switchId = STATUS_TRIGGERED
            ∧ (step st op).switchStatus switchId = STATUS_ACTIVE))
    ∧ (∀ st op switchId, statusInv st →
        (step st op).switchStatus switchId ≠ STATUS_CANCELLED) := by
  refine ⟨⟨fun _ => Or.inl rfl, fun _ _ => rfl⟩, ?_, ?_, ?_⟩
  · intro st ops h
    exact execOps_statusInv ops st h
  · intro st op h switchId hch
    rcases step_status_cases st op h switchId with hsame | hrest
    · exact absurd hsame hch
    · exact hrest
  · intro st op switchId h
    have h2 := (step_statusInv st op h).1 switchId
    unfold STATUS_ACTIVE STATUS_TRIGGERED at h2
    unfold STATUS_CANCELLED
    omega

/-- C5 witness: the invariant holds after a concrete create-then-trigger
sequence from the deployment state, and a concrete trigger step is
classified as an ACTIVE-to-TRIGGERED transition. -/
theorem status_machine_witness :
    statusInv (execOps initialState
      [Op.opCreateSwitch { currentBlock := 100, sender := 7 } 8 10 5,
        Op.opTrigger { currentBlock := 111, sender := 42 } 1])
    ∧ (∀ switchId,
        (step demoState (Op.opTrigger { currentBlock := 111, sender := 42 } 1)).switchStatus
            switchId ≠ demoState.switchStatus switchId →
          (∃ c, Op.opTrigger { currentBlock := 111, sender := 42 } 1 = Op.opTrigger c switchId
            ∧ demoState.switchStatus switchId = STATUS_ACTIVE
            ∧ (step demoState
                (Op.opTrigger { currentBlock := 111, sender := 42 } 1)).switchStatus switchId
                = STATUS_TRIGGERED)
          ∨ (∃ c, Op.opTrigger { currentBlock := 111, sender := 42 } 1 = Op.opCancel c switchId
            ∧ demoState.switchStatus switchId = STATUS_TRIGGERED
            ∧ (step demoState
                (Op.opTrigger { currentBlock := 111, sender := 42 } 1)).switchStatus switchId
                = STATUS_ACTIVE)) :=
  ⟨status_machine.2.1 initialState
      [Op.opCreateSwitch { currentBlock := 100, sender := 7 } 8 10 5,
        Op.opTrigger { currentBlock := 111, sender := 42 } 1] status_machine.1,
    fun switchId => status_machine.2.2.1 demoState
      (Op.opTrigger { currentBlock := 111, sender := 42 } 1)
      ⟨fun _ => Or.inl rfl, fun _ _ => rfl⟩ switchId⟩

/-- Helper: a successful `storeData` sets the record's chunk count to the
maximum of the old count and `chunkIndex + 1`. -/
lemma storeData_count (ctx : Ctx) (st : ContractState) (switchId chunkIndex : Nat)
    (data : List Nat) (st2 : ContractState)
    (h : storeData ctx st switchId chunkIndex data = Except.ok st2) :
    st2.switchChunkCount switchId
      = max (st.switchChunkCount switchId) (chunkIndex + 1) := by
  obtain ⟨hex, hact, hov, chunks2, hshape⟩ :=
    storeData_ok_shape ctx st switchId chunkIndex data st2 h
  by_cases h5 : chunkIndex + 1 > st.switchChunkCount switchId
  · rw [hshape, if_pos h5]
    show updMap st.switchChunkCount switchId (chunkIndex + 1) switchId = _
    rw [updMap_self]
    omega
  · rw [hshape, if_neg h5]
    show st.switchChunkCount switchId = _
    omega

/-- Helper: the chunk count reached by a sequence of `storeData` calls is
the maximum of the starting count and the successor of every successful
chunk index. -/
lemma runStoreData_count : ∀ (calls : List StoreCall) (st : ContractState) (switchId : Nat),
    (runStoreData st switchId calls).1.switchChunkCount switchId
      = max (st.switchChunkCount switchId)
          (listMax (((runStoreData st switchId calls).2).map (fun i => i + 1))) := by
  intro calls
  induction calls with
  | nil =>
    intro st switchId
    simp [runStoreData, listMax]
  | cons c rest ih =>
    intro st switchId
    simp only [runStoreData]
    cases hc : storeData c.ctx st switchId c.chunkIndex c.data with
    | ok st2 =>
      simp only []
      rw [ih st2 switchId, storeData_count _ _ _ _ _ _ hc]
      simp only [List.map_cons, listMax, List.foldr_cons]
      omega
    | error e =>
      simp only []
      exact ih st switchId

/-- Helper: the maximum of the successors is one more than the maximum of a
nonempty list. -/
lemma listMax_map_succ (l : List Nat) :
    listMax (l.map (fun i => i + 1)) = if l = [] then 0 else 1 + listMax l := by
  induction l with
  | nil => rfl
  | cons a t ih =>
    rw [if_neg (by simp)]
    by_cases ht : t = []
    · subst ht
      simp only [List.map_cons, List.map_nil, listMax, List.foldr_cons, List.foldr_nil]
      omega
    · rw [if_neg ht] at ih
      simp only [List.map_cons, listMax, List.foldr_cons] at ih ⊢
      omega

/-- Helper: effect of one step on a record's chunk count, under the
chunk-count invariant: unchanged, or the op is a `storeData` of exactly
that record at an index at or above the current count, which it raises to
`chunkIndex + 1`. -/
lemma step_chunkCount_cases (st : ContractState) (op : Op) (hinv : chunkInv st)
    (switchId : Nat) :
    (step st op).switchChunkCount switchId = st.switchChunkCount switchId
    ∨ (∃ c chunkIndex d, op = Op.opStoreData c switchId chunkIndex d
        ∧ chunkIndex ≥ st.switchChunkCount switchId
        ∧ (step st op).switchChunkCount switchId = chunkIndex + 1) := by
  cases op with
  | opCreateSwitch c b i g =>
    left
    simp only [step]
    cases hc : createSwitch c st b i g with
    | error e => rfl
    | ok r =>
      obtain ⟨h1, h2⟩ := createSwitch_ok_shape c st b i g r hc
      change r.2.switchChunkCount switchId = st.switchChunkCount switchId
      rw [h2]
      simp only [updMap]
      by_cases he : switchId = st.nextSwitchId
      · rw [if_pos he]
        exact (hinv switchId (Or.inr (by omega))).symm
      · rw [if_neg he]
  | opCheckin c switchId2 =>
    left
    simp only [step]
    cases hc : checkin c st switchId2 with
    | error e => rfl
    | ok st2 =>
      obtain ⟨h1, h2⟩ := checkin_ok_shape c st switchId2 st2 hc
      rw [h2]
  | opStoreData c switchId2 chunkIndex d =>
    simp only [step]
    cases hc : storeData c st switchId2 chunkIndex d with
    | error e => exact Or.inl rfl
    | ok st2 =>
      obtain ⟨hex, hact, hov, chunks2, hshape⟩ :=
        storeData_ok_shape c st switchId2 chunkIndex d st2 hc
      have hred : (match (Except.ok st2 : Except String ContractState) with
          | Except.ok st3 => st3
          | Except.error _ => st) = st2 := rfl
      rw [hred]
      have hcount := storeData_count c st switchId2 chunkIndex d st2 hc
      by_cases he : switchId = switchId2
      · subst he
        by_cases h5 : chunkIndex + 1 > st.switchChunkCount switchId
        · right
          exact ⟨c, chunkIndex, d, rfl, by omega, by omega⟩
        · left
          omega
      · left
        rw [hshape]
        by_cases h5 : chunkIndex + 1 > st.switchChunkCount switchId2
        · rw [if_pos h5]
          show updMap st.switchChunkCount switchId2 (chunkIndex + 1) switchId = _
          simp only [updMap]
          rw [if_neg he]
        · rw [if_neg h5]
  | opStoreDecryptionKey c switchId2 k =>
    left
    simp only [step]
    cases hc : storeDecryptionKey c st switchId2 k with
    | error e => rfl
    | ok st2 =>
      obtain ⟨h1, ks2, h2⟩ := storeDecryptionKey_ok_shape c st switchId2 k st2 hc
      rw [h2]
  | opTrigger c switchId2 =>
    left
    simp only [step]
    cases hc : trigger c st switchId2 with
    | error e => rfl
    | ok st2 =>
      obtain ⟨h1, h2, h3, h4⟩ := trigger_ok_shape c st switchId2 st2 hc
      rw [h4]
  | opCancel c switchId2 =>
    left
    simp only [step]
    cases hc : cancel c st switchId2 with
    | error e => rfl
    | ok st2 =>
      obtain ⟨h1, h2, h3⟩ := cancel_ok_shape c st switchId2 st2 hc
      rw [h3]
  | opUpdateBeneficiary c switchId2 b =>
    left
    simp only [step]
    cases hc : updateBeneficiary c st switchId2 b with
    | error e => rfl
    | ok st2 =>
      obtain ⟨h1, h2⟩ := updateBeneficiary_ok_shape c st switchId2 b st2 hc
      rw [h2]
  | opUpdateInterval c switchId2 n =>
    left
    simp only [step]
    cases hc : updateInterval c st switchId2 n with
    | error e => rfl
    | ok st2 =>
      obtain ⟨h1, h2⟩ := updateInterval_ok_shape c st switchId2 n st2 hc
      rw [h2]

/-- Helper: the chunk-count invariant is preserved by every step. -/
lemma step_chunkInv (st : ContractState) (op : Op) (hinv : chunkInv st) :
    chunkInv (step st op) := by
  cases op with
  | opCreateSwitch c b i g =>
    simp only [step]
    cases hc : createSwitch c st b i g with
    | error e => exact hinv
    | ok r =>
      obtain ⟨h1, h2⟩ := createSwitch_ok_shape c st b i g r hc
      change chunkInv r.2
      rw [h2]
      intro switchId hbad
      have hbad2 : switchId = 0 ∨ switchId ≥ st.nextSwitchId + 1 := hbad
      simp only [updMap]
      by_cases he : switchId = st.nextSwitchId
      · rw [if_pos he]
      · rw [if_neg he]
        exact hinv switchId (by omega)
  | opCheckin c switchId2 =>
    simp only [step]
    cases hc : checkin c st switchId2 with
    | error e => exact hinv
    | ok st2 =>
      obtain ⟨h1, h2⟩ := checkin_ok_shape c st switchId2 st2 hc
      rw [h2]
      exact hinv
  | opStoreData c switchId2 chunkIndex d =>
    simp only [step]
    cases hc : storeData c st switchId2 chunkIndex d with
    | error e => exact hinv
    | ok st2 =>
      obtain ⟨hex, hact, hov, chunks2, hshape⟩ :=
        storeData_ok_shape c st switchId2 chunkIndex d st2 hc
      have hred : (match (Except.ok st2 : Except String ContractState) with
          | Except.ok st3 => st3
          | Except.error _ => st) = st2 := rfl
      rw [hred, hshape]
      by_cases h5 : chunkIndex + 1 > st.switchChunkCount switchId2
      · rw [if_pos h5]
        intro switchId hbad
        have hbad2 : switchId = 0 ∨ switchId ≥ st.nextSwitchId := hbad
        simp only [updMap]
        have he : ¬ switchId = switchId2 := by omega
        rw [if_neg he]
        exact hinv switchId hbad2
      · rw [if_neg h5]
        intro switchId hbad
        have hbad2 : switchId = 0 ∨ switchId ≥ st.nextSwitchId := hbad
        exact hinv switchId hbad2
  | opStoreDecryptionKey c switchId2 k =>
    simp only [step]
    cases hc : storeDecryptionKey c st switchId2 k with
    | error e => exact hinv
    | ok st2 =>
      obtain ⟨h1, ks2, h2⟩ := storeDecryptionKey_ok_shape c st switchId2 k st2 hc
      rw [h2]
      exact hinv
  | opTrigger c switchId2 =>
    simp only [step]
    cases hc : trigger c st switchId2 with
    | error e => exact hinv
    | ok st2 =>
      obtain ⟨h1, h2, h3, h4⟩ := trigger_ok_shape c st switchId2 st2 hc
      rw [h4]
      exact hinv
  | opCancel c switchId2 =>
    simp only [step]
    cases hc : cancel c st switchId2 with
    | error e => exact hinv
    | ok st2 =>
      obtain ⟨h1, h2, h3⟩ := cancel_ok_shape c st switchId2 st2 hc
      rw [h3]
      exact hinv
  | opUpdateBeneficiary c switchId2 b =>
    simp only [step]
    cases hc : updateBeneficiary c st switchId2 b with
    | error e => exact hinv
    | ok st2 =>
      obtain ⟨h1, h2⟩ := updateBeneficiary_ok_shape c st switchId2 b st2 hc
      rw [h2]
      exact hinv
  | opUpdateInterval c switchId2 n =>
    simp only [step]
    cases hc : updateInterval c st switchId2 n with
    | error e => exact hinv
    | ok st2 =>
      obtain ⟨h1, h2⟩ := updateInterval_ok_shape c st switchId2 n st2 hc
      rw [h2]
      exact hinv

/-- C8: chunk count law.  Starting from a record with chunk count 0, after
any sequence of `storeData` calls the stored chunk count equals
`1 + max chunkIndex` over the successful calls (0 when none succeeded);
under the chunk-count invariant (which holds at deployment and is preserved
by every public operation) no public operation ever decreases a record's
chunk count, and a step strictly increases it only by storing a chunk of
that record at an index at or above the current count. -/
theorem chunk_count_law :
    (∀ st switchId calls, st.switchChunkCount switchId = 0 →
      (runStoreData st switchId calls).1.switchChunkCount switchId
        = (if (runStoreData st switchId calls).2 = [] then 0
            else 1 + listMax (runStoreData st switchId calls).2))
    ∧ (∀ st op switchId, chunkInv st →
        st.switchChunkCount switchId ≤ (step st op).switchChunkCount switchId)
    ∧ (∀ st op switchId, chunkInv st →
        (step st op).switchChunkCount switchId > st.switchChunkCount switchId →
        ∃ c chunkIndex d, op = Op.opStoreData c switchId chunkIndex d
          ∧ chunkIndex ≥ st.switchChunkCount switchId)
    ∧ (∀ st op, chunkInv st → chunkInv (step st op))
    ∧ chunkInv initialState := by
  refine ⟨?_, ?_, ?_, step_chunkInv, fun _ _ => rfl⟩
  · intro st switchId calls h0
    rw [runStoreData_count calls st switchId, h0,
      listMax_map_succ ((runStoreData st switchId calls).2)]
    by_cases he : (runStoreData st switchId calls).2 = []
    · rw [if_pos he]
      omega
    · rw [if_neg he]
      omega
  · intro st op switchId hinv
    rcases step_chunkCount_cases st op hinv switchId with h | ⟨c, chunkIndex, d, hop, hge, hval⟩
    · omega
    · omega
  · intro st op switchId hinv hgt
    rcases step_chunkCount_cases st op hinv switchId with h | ⟨c, chunkIndex, d, hop, hge, hval⟩
    · omega
    · exact ⟨c, chunkIndex, d, hop, hge⟩

/-- C8 witness: the count law applied to the concrete `demoState` record
with a two-call sequence (indices 0 then 2), and a concrete monotonicity
instance. -/
theorem chunk_count_law_witness :
    ((runStoreData demoState 1
        [{ ctx := { currentBlock := 101, sender := 7 }, chunkIndex := 0, data := [5] },
          { ctx := { currentBlock := 102, sender := 7 }, chunkIndex := 2, data := [6] }]).1.switchChunkCount 1
      = (if (runStoreData demoState 1
            [{ ctx := { currentBlock := 101, sender := 7 }, chunkIndex := 0, data := [5] },
              { ctx := { currentBlock := 102, sender := 7 }, chunkIndex := 2, data := [6] }]).2 = []
          then 0
          else 1 + listMax (runStoreData demoState 1
            [{ ctx := { currentBlock := 101, sender := 7 }, chunkIndex := 0, data := [5] },
              { ctx := { currentBlock := 102, sender := 7 }, chunkIndex := 2, data := [6] }]).2))
    ∧ demoState.switchChunkCount 1
        ≤ (step demoState
            (Op.opStoreData { currentBlock := 101, sender := 7 } 1 0 [5])).switchChunkCount 1 :=
  ⟨chunk_count_law.1 demoState 1
      [{ ctx := { currentBlock := 101, sender := 7 }, chunkIndex := 0, data := [5] },
        { ctx := { currentBlock := 102, sender := 7 }, chunkIndex := 2, data := [6] }] rfl,
    chunk_count_law.2.1 demoState
      (Op.opStoreData { currentBlock := 101, sender := 7 } 1 0 [5]) 1 (fun _ _ => rfl)⟩

/-- C9: capacity limit.  `storeMultiSlotBytes` fails (with the capacity
error) exactly when the payload length exceeds
`maxDataBytes = 256 * 32 - 4 = 8188`, and every payload of at most
`maxDataBytes` bytes is accepted by the byte store; an accepted payload
writes only the 256 slot keys `baseKey + 0 .. baseKey + 255` (at most 256
storage slots); and an over-long payload makes both `storeData` and
`storeDecryptionKey` fail with the capacity error even when every other
precondition of theirs holds. -/
theorem capacity_limit (stg : Storage) (pointer : Nat) (subPointer : List Nat)
    (data : List Nat) (ctx : Ctx) (st : ContractState) (switchId chunkIndex : Nat) :
    (maxDataBytes = 256 * 32 - 4 ∧ maxDataBytes = 8188)
    ∧ (storeMultiSlotBytes stg pointer subPointer data
          = Except.error "Data exceeds maximum storage capacity"
        ↔ data.length > maxDataBytes)
    ∧ (data.length ≤ maxDataBytes →
        ∃ stg2, storeMultiSlotBytes stg pointer subPointer data = Except.ok stg2)
    ∧ (∀ stg2, storeMultiSlotBytes stg pointer subPointer data = Except.ok stg2 →
        data.length ≤ maxDataBytes
        ∧ ∀ k, (∀ j, j < 256 → k ≠ bigEndianAdd (encodePointerNat pointer subPointer) j) →
            k ≠ encodePointerNat pointer subPointer →
            stg2 k = stg k)
    ∧ ((1 ≤ switchId ∧ switchId < st.nextSwitchId) →
        ctx.sender = st.switchOwner switchId →
        st.switchStatus switchId = STATUS_ACTIVE →
        data.length ≠ 0 →
        data.length > maxDataBytes →
        storeData ctx st switchId chunkIndex data
          = Except.error "Data exceeds maximum storage capacity")
    ∧ ((1 ≤ switchId ∧ switchId < st.nextSwitchId) →
        ctx.sender = st.switchOwner switchId →
        st.switchStatus switchId = STATUS_ACTIVE →
        data.length ≠ 0 →
        data.length > maxDataBytes →
        storeDecryptionKey ctx st switchId data
          = Except.error "Data exceeds maximum storage capacity") := by
  have hcap : ∀ d2 : List Nat, d2.length > maxDataBytes →
      ∀ stgx px spx, storeMultiSlotBytes stgx px spx d2
        = Except.error "Data exceeds maximum storage capacity" := by
    intro d2 h stgx px spx
    unfold storeMultiSlotBytes
    rw [if_pos h]
  refine ⟨⟨rfl, by norm_num [maxDataBytes, MAX_BYTE_SLOTS]⟩, ⟨?_, ?_⟩, ?_, ?_, ?_, ?_⟩
  · intro h
    by_contra hnot
    unfold storeMultiSlotBytes at h
    rw [if_neg hnot] at h
    exact Except.noConfusion h
  · intro h
    exact hcap data h stg pointer subPointer
  · intro hle
    refine ⟨storeSlotsLoop
        (setStorage stg (encodePointerNat pointer subPointer) (slot0Of data))
        (encodePointerNat pointer subPointer) data 28 1, ?_⟩
    unfold storeMultiSlotBytes
    rw [if_neg (by omega)]
  · intro stg2 h2
    by_cases hlen : data.length > maxDataBytes
    · rw [hcap data hlen stg pointer subPointer] at h2
      exact absurd h2 (by simp)
    · constructor
      · omega
      · intro k hk hk0
        unfold storeMultiSlotBytes at h2
        rw [if_neg hlen] at h2
        have hstg2 := ((Except.ok.injEq _ _).mp h2).symm
        rw [hstg2]
        have hmax : data.length ≤ 8188 := by
          have : maxDataBytes = 8188 := by norm_num [maxDataBytes, MAX_BYTE_SLOTS]
          omega
        rw [storeSlotsLoop_frame (data.length - 28) _ _ _ _ _ _ (le_refl _)
          (by
            intro j hj1 hj2
            have hj256 : j < 256 := by omega
            exact hk j hj256)]
        simp [setStorage, hk0]
  · intro hex hown hact hne hlen
    simp only [storeData, ensureSwitchExists_ok st switchId hex,
      ensureOwner_ok ctx st switchId hown, ensureActive_ok st switchId hact]
    rw [if_neg hne, hcap data hlen st.switchDataChunks switchDataChunksPointer
      (compoundSubPointer switchId chunkIndex)]
  · intro hex hown hact hne hlen
    simp only [storeDecryptionKey, ensureSwitchExists_ok st switchId hex,
      ensureOwner_ok ctx st switchId hown, ensureActive_ok st switchId hact]
    rw [if_neg hne, hcap data hlen st.switchEncryptedKey switchEncryptedKeyPointer
      (u256ToSubPointer switchId)]

/-- C9 witness: a concrete 8189-byte payload is rejected by the byte store
and makes both `storeData` and `storeDecryptionKey` on `demoState` fail with
the capacity error, while a concrete 3-byte payload is accepted. -/
theorem capacity_limit_witness :
    (storeMultiSlotBytes (fun _ _ => 0) switchDataChunksPointer (u256ToSubPointer 1)
        (List.replicate 8189 0) = Except.error "Data exceeds maximum storage capacity"
      ↔ (List.replicate (8189 : Nat) (0 : Nat)).length > maxDataBytes)
    ∧ (∃ stg2, storeMultiSlotBytes (fun _ _ => 0) switchDataChunksPointer
        (u256ToSubPointer 1) [7, 8, 9] = Except.ok stg2)
    ∧ storeData { currentBlock := 101, sender := 7 } demoState 1 0
        (List.replicate 8189 0) = Except.error "Data exceeds maximum storage capacity"
    ∧ storeDecryptionKey { currentBlock := 101, sender := 7 } demoState 1
        (List.replicate 8189 0) = Except.error "Data exceeds maximum storage capacity" :=
  ⟨(capacity_limit (fun _ _ => 0) switchDataChunksPointer (u256ToSubPointer 1)
      (List.replicate 8189 0) { currentBlock := 101, sender := 7 } demoState 1 0).2.1,
    (capacity_limit (fun _ _ => 0) switchDataChunksPointer (u256ToSubPointer 1)
      [7, 8, 9] { currentBlock := 101, sender := 7 } demoState 1 0).2.2.1
      (by norm_num [maxDataBytes, MAX_BYTE_SLOTS]),
    (capacity_limit (fun _ _ => 0) switchDataChunksPointer (u256ToSubPointer 1)
      (List.replicate 8189 0) { currentBlock := 101, sender := 7 } demoState 1 0).2.2.2.2.1
      (by decide) rfl rfl (by rw [List.length_replicate]; norm_num)
      (by rw [List.length_replicate]; norm_num [maxDataBytes, MAX_BYTE_SLOTS]),
    (capacity_limit (fun _ _ => 0) switchDataChunksPointer (u256ToSubPointer 1)
      (List.replicate 8189 0) { currentBlock := 101, sender := 7 } demoState 1 0).2.2.2.2.2
      (by decide) rfl rfl (by rw [List.length_replicate]; norm_num)
      (by rw [List.length_replicate]; norm_num [maxDataBytes, MAX_BYTE_SLOTS])⟩

/-- C10: hole reads return empty.  For every existing switch and every
chunk index below the stored chunk count whose chunk storage was never
written (its slot 0 reads as the all-zero slot), `getData` does not fail:
the decoded length is zero, so it returns the empty byte array. -/
theorem getData_hole (st : ContractState) (switchId chunkIndex : Nat)
    (hex : 1 ≤ switchId ∧ switchId < st.nextSwitchId)
    (hidx : chunkIndex < st.switchChunkCount switchId)
    (hzero : ∀ i, st.switchDataChunks
        (encodePointerNat switchDataChunksPointer (compoundSubPointer switchId chunkIndex)) i
      = 0) :
    getData st switchId chunkIndex = Except.ok [] := by
  simp only [getData, ensureSwitchExists_ok st switchId hex]
  rw [if_neg (by omega)]
  unfold loadMultiSlotBytes
  simp only [hzero, Nat.zero_shiftLeft, Nat.zero_or]
  simp

/-- Demonstration state with a chunk-count hole: switch 1 reports three
chunks but its chunk storage is empty. -/
def demoChunkState : ContractState :=
  { demoState with switchChunkCount := fun _ => 3 }

/-- C10 witness: reading the never-written chunk 1 of `demoChunkState`
(chunk count 3) succeeds and returns the empty array. -/
theorem getData_hole_witness : getData demoChunkState 1 1 = Except.ok [] :=
  getData_hole demoChunkState 1 1 (by decide) (by decide) (fun _ => rfl)
